import Mathlib

/-!
Verification of the inventory/order synchronization engine of the
order-submission application (`webapp.py`).

The Python source manipulates a remote row-oriented tabular store
("sheets").  We embed the relevant pure logic shallowly:

* worksheets become lists of rows of strings (`Ws`);
* `gspread` cell/column operations become total Lean functions that
  reproduce the library's documented behaviour (1-based addressing,
  trailing-empty-cell trimming on `row_values`/`col_values`);
* the two `re.sub` formula-rewriting calls become explicit fuel-based
  scanners over character lists with the exact match semantics of the
  patterns `([A-Z]+)2\b` and `(\$?[A-Z]+\$?)2\b`;
* Python `float` parsing of decimal literals becomes an explicit
  numerator/denominator pair (`Frac`, denominator a power of ten), and
  `"%.2f"` formatting becomes half-up rounding to hundredths (ties at
  exactly .xx5 essentially never arise in the modelled flows);
* the process-wide caches become fields of an `AppState` record.

Every definition follows the corresponding Python function, named after
it where Lean allows.
-/

namespace OrderApp

/-! ### Python string primitives (`str.strip`, `str.lower`) -/

/-- `str.strip()` on ASCII whitespace: drop whitespace from both ends. -/
def pyStrip (s : String) : String :=
  ⟨(((s.data.dropWhile Char.isWhitespace).reverse.dropWhile Char.isWhitespace).reverse)⟩

/-- `str.lower()` (ASCII range, which is all the code compares). -/
def pyLower (s : String) : String :=
  ⟨s.data.map Char.toLower⟩

/-! ### The `re.sub` formula rewrites

`create_new_material_inventory`, `create_new_fur_color_inventory` and
`create_new_thread_inventory` all run
`re.sub(r'([A-Z]+)2\b', lambda m: f"{m.group(1)}{new_row}", formula)`;
`OrderEntryApp.submit_order` runs
`re.sub(r'(\$?[A-Z]+\$?)2\b', lambda m: f"{m.group(1)}{next_row}", formula)`.

A match of `([A-Z]+)2\b` is a maximal run of uppercase letters followed
by the digit `2` at a word boundary (the letter run cannot backtrack
because `2` is not a letter, and a failed attempt anywhere inside a run
fails at every position of the run).  The scanners below reproduce
exactly that left-to-right, leftmost-match behaviour; they are
fuel-indexed so that they compute by kernel reduction. -/

/-- Python `\w` (ASCII): letters, digits, underscore. -/
def isWordChar (c : Char) : Bool := c.isAlphanum || c == '_'

/-- `\b` right after the matched `2`: next char absent or not a word char. -/
def boundaryAfter2 : List Char → Bool
  | [] => true
  | d :: _ => !(isWordChar d)

mutual

/-- Scanner for `re.sub(r'([A-Z]+)2\b', g1 ++ digits(newRow), s)`:
outside a letter run. -/
def subRow2Scan (tr : List Char) : Nat → List Char → List Char
  | 0, l => l
  | _ + 1, [] => []
  | fuel + 1, c :: cs =>
    if c.isUpper then subRow2Run tr fuel [c] cs
    else c :: subRow2Scan tr fuel cs

/-- Scanner for `re.sub(r'([A-Z]+)2\b', ...)`: inside a letter run whose
reversed characters are `run`. -/
def subRow2Run (tr : List Char) : Nat → List Char → List Char → List Char
  | 0, run, l => run.reverse ++ l
  | _ + 1, run, [] => run.reverse
  | fuel + 1, run, c :: cs =>
    if c.isUpper then subRow2Run tr fuel (c :: run) cs
    else if c == '2' && boundaryAfter2 cs then
      run.reverse ++ tr ++ subRow2Scan tr fuel cs
    else
      run.reverse ++ c :: subRow2Scan tr fuel cs

end

/-- The row-reference rewrite used by the three `create_new_*_inventory`
functions: every maximal uppercase-letter run immediately followed by a
literal `2` at a word boundary has the `2` replaced by `newRow`. -/
def reSubRow2 (newRow : Nat) (s : String) : String :=
  ⟨subRow2Scan (Nat.repr newRow).data (s.data.length + 1) s.data⟩

mutual

/-- Scanner for `re.sub(r'(\$?[A-Z]+\$?)2\b', g1 ++ digits(newRow), s)`:
outside a match attempt. -/
def subRow2DScan (tr : List Char) : Nat → List Char → List Char
  | 0, l => l
  | _ + 1, [] => []
  | fuel + 1, c :: cs =>
    if c == '$' then
      match cs with
      | d :: ds =>
        if d.isUpper then subRow2DRun tr fuel [d, '$'] ds
        else c :: subRow2DScan tr fuel cs
      | [] => [c]
    else if c.isUpper then subRow2DRun tr fuel [c] cs
    else c :: subRow2DScan tr fuel cs

/-- Scanner for `re.sub(r'(\$?[A-Z]+\$?)2\b', ...)`: inside a candidate
group whose reversed characters (optional `$` then letters) are `run`. -/
def subRow2DRun (tr : List Char) : Nat → List Char → List Char → List Char
  | 0, run, l => run.reverse ++ l
  | _ + 1, run, [] => run.reverse
  | fuel + 1, run, c :: cs =>
    if c.isUpper then subRow2DRun tr fuel (c :: run) cs
    else if c == '2' && boundaryAfter2 cs then
      run.reverse ++ tr ++ subRow2DScan tr fuel cs
    else if c == '$' then
      match cs with
      | '2' :: ds =>
        if boundaryAfter2 ds then
          run.reverse ++ '$' :: (tr ++ subRow2DScan tr fuel ds)
        else
          run.reverse ++ '$' :: '2' :: subRow2DScan tr fuel ds
      | d :: ds =>
        if d.isUpper then run.reverse ++ subRow2DRun tr fuel [d, '$'] ds
        else run.reverse ++ '$' :: subRow2DScan tr fuel cs
      | [] => run.reverse ++ ['$']
    else
      run.reverse ++ c :: subRow2DScan tr fuel cs

end

/-- The row-reference rewrite used by `OrderEntryApp.submit_order` for
the Stage / Ship Date / Preview / Stitch Count columns: like
`reSubRow2` but an absolute marker `$` may appear before the letters
and/or before the `2`, and is kept in the replacement. -/
def reSubRow2Dollar (newRow : Nat) (s : String) : String :=
  ⟨subRow2DScan (Nat.repr newRow).data (s.data.length + 1) s.data⟩

/-- The template-clone step shared by the `create_new_*_inventory`
functions: read the row-2 formula text of a computed column; if it is
non-empty (Python truthiness) rewrite its row references to `newRow`,
otherwise produce the literal `"0"`. -/
def cloneValue (formula : String) (newRow : Nat) : String :=
  if formula = "" then "0" else reSubRow2 newRow formula

example : reSubRow2 7 "=C2-D2" = "=C7-D7" := by decide
example : reSubRow2 7 "=$C2-D2" = "=$C7-D7" := by decide
example : reSubRow2Dollar 7 "=$C$2-D2" = "=$C$7-D7" := by decide
example : reSubRow2 10 "=SUM(C2:D2)*E22" = "=SUM(C10:D10)*E22" := by decide
example : cloneValue "" 7 = "0" := by decide

/-! ### The worksheet model

A worksheet is a list of rows of cell strings.  `row_values` /
`col_values` trim trailing empty cells, exactly as `gspread` documents;
`update_cell` pads the grid as needed; all addressing is 1-based. -/

abbrev Row := List String

structure Ws where
  rows : List Row
deriving DecidableEq

/-- Drop trailing empty cells (the `gspread` trimming convention). -/
def trimTrailingEmpty (l : List String) : List String :=
  (l.reverse.dropWhile (· == "")).reverse

/-- Extend a list to length at least `n` with copies of `x`. -/
def padTo {α : Type} (n : Nat) (x : α) (l : List α) : List α :=
  l ++ List.replicate (n - l.length) x

namespace Ws

/-- `ws.get_all_values()`: every stored row. -/
def getAllValues (ws : Ws) : List Row := ws.rows

/-- A single cell read, 1-based; empty outside the used range. -/
def getCell (ws : Ws) (r c : Nat) : String :=
  (ws.rows.getD (r - 1) []).getD (c - 1) ""

/-- `ws.row_values(1)`: the header row, trailing empties trimmed. -/
def rowValues1 (ws : Ws) : List String :=
  trimTrailingEmpty (ws.rows.getD 0 [])

/-- `ws.col_values(c)`, 1-based: the column's cells down to its last
non-empty one (embedded empty cells are kept as `""`). -/
def colValues (ws : Ws) (c : Nat) : List String :=
  trimTrailingEmpty (ws.rows.map (fun row => row.getD (c - 1) ""))

/-- `ws.update_cell(r, c, v)`, 1-based, growing the grid as needed. -/
def updateCell (ws : Ws) (r c : Nat) (v : String) : Ws :=
  ⟨(padTo r ([] : Row) ws.rows).set (r - 1)
    ((padTo c "" ((padTo r ([] : Row) ws.rows).getD (r - 1) [])).set (c - 1) v)⟩

end Ws

/-- `find_exact_header_index(header_list, target)`: position of the
first exactly-equal header, if any. -/
def find_exact_header_index (headers : List String) (target : String) : Option Nat :=
  List.findIdx? (· == target) headers

/-- Python `headers.index(target)` (only reached after an `in` guard). -/
def headerIdx (headers : List String) (target : String) : Nat :=
  List.findIdx (· == target) headers

/-- Fuel-indexed loop of `column_letter`. -/
def columnLetterAux : Nat → Nat → String
  | 0, _ => ""
  | _, 0 => ""
  | fuel + 1, n =>
    columnLetterAux fuel ((n - 1) / 26) ++ String.singleton (Char.ofNat (65 + (n - 1) % 26))

/-- `column_letter(n)`: 1-based column number to letters (1 ↦ A …). -/
def column_letter (n : Nat) : String := columnLetterAux n n

example : column_letter 5 = "E" := by decide
example : column_letter 28 = "AB" := by decide

/-! ### Numeric cell values

Python `float()` on the quantity strings, and the `"%.2f"` formatting of
the reconciliation view, are modelled on exact fractions whose
denominator is a power of ten. -/

structure Frac where
  num : Int
  den : Nat
deriving DecidableEq

/-- The rational value of a parsed number (used only in statements). -/
def Frac.val (f : Frac) : ℚ := (f.num : ℚ) / (f.den : ℚ)

/-- Value of a list of decimal digit characters. -/
def digitsToNat (l : List Char) : Nat :=
  l.foldl (fun a c => a * 10 + (c.toNat - 48)) 0

/-- Python `float(s)` restricted to plain decimal literals (optional
sign, digits, optional single point); anything else fails to parse,
which the callers turn into their fallback behaviour. -/
def pyFloat (s : String) : Option Frac :=
  let l := (pyStrip s).data
  let p := match l with
    | '-' :: t => (true, t)
    | '+' :: t => (false, t)
    | _ => (false, l)
  let sgn : Int → Int := fun n => if p.1 then -n else n
  let ip := p.2.takeWhile Char.isDigit
  let rest := p.2.dropWhile Char.isDigit
  match rest with
  | [] => if ip.isEmpty then none else some ⟨sgn (digitsToNat ip), 1⟩
  | '.' :: fr =>
    let fp := fr.takeWhile Char.isDigit
    let rest2 := fr.dropWhile Char.isDigit
    if rest2.isEmpty && !(ip.isEmpty && fp.isEmpty) then
      some ⟨sgn ((digitsToNat ip) * 10 ^ fp.length + digitsToNat fp), 10 ^ fp.length⟩
    else none
  | _ => none

/-- The decimal text a written numeric value reads back as from the
store (`gspread` serialises the number; exact integers come back
without a fractional part, which covers every modelled flow). -/
def Frac.render (f : Frac) : String :=
  if f.num % (f.den : Int) == 0 then Int.repr (f.num / (f.den : Int))
  else Int.repr f.num ++ "/" ++ Nat.repr f.den

/-- `f"{x:.2f}"` for the nonnegative quantities the reconciliation view
formats: round to hundredths and print exactly two fractional digits. -/
def formatTwoDec (f : Frac) : String :=
  let r := (200 * f.num.toNat + f.den) / (2 * f.den)
  Nat.repr (r / 100) ++ "." ++ (if r % 100 < 10 then "0" else "") ++ Nat.repr (r % 100)

/-- The display string `f"{qty_val:.2f} cones"` built by
`load_orders_from_sheets` for a parsed stored length `v`:
`v / 16500` cones, two decimals. -/
def conesDisplay (v : Frac) : String :=
  formatTwoDec ⟨v.num, v.den * 16500⟩ ++ " cones"

/-- `new_qty` in `post_thread_data`: `float(thread_qty) * 16500`, or `0`
when the quantity string does not parse. -/
def threadNewQty (thread_qty : String) : Frac :=
  match pyFloat thread_qty with
  | some f => ⟨f.num * 16500, f.den⟩
  | none => ⟨0, 1⟩

example : threadNewQty "2" = ⟨33000, 1⟩ := by decide
example : (threadNewQty "2").render = "33000" := by decide
example : threadNewQty "x" = ⟨0, 1⟩ := by decide
example : conesDisplay ⟨33000, 1⟩ = "2.00 cones" := by decide
example : pyFloat " 2.5 " = some ⟨25, 10⟩ := by decide

/-! ### Ledger appends -/

/-- `update_material_log`: header-checked append into the Material Log.
The error value is the first missing required header name (the content
of the reported message); on success the written row number and the
updated worksheet are produced. -/
def update_material_log (ws_log : Ws) (material qty order_status date_stamp : String) :
    Except String Nat × Ws :=
  let headers := ws_log.rowValues1
  let required := ["Material", "Yards", "IN/OUT", "O/R", "Date"]
  match required.find? (fun r => !headers.contains r) with
  | some r => (.error r, ws_log)
  | none =>
    let mat_col := headerIdx headers "Material" + 1
    let yards_col := headerIdx headers "Yards" + 1
    let inout_col := headerIdx headers "IN/OUT" + 1
    let or_col := headerIdx headers "O/R" + 1
    let date_col := headerIdx headers "Date" + 1
    let new_row := (ws_log.colValues mat_col).length + 1
    let ws1 := ws_log.updateCell new_row mat_col material
    let ws2 := ws1.updateCell new_row yards_col qty
    let ws3 := ws2.updateCell new_row inout_col "IN"
    let ws4 := ws3.updateCell new_row or_col order_status
    (.ok new_row, ws4.updateCell new_row date_col date_stamp)

/-- `post_thread_data`: header-checked append into Thread Data.  `Date`
and `O/R` are optional columns, written only when present. -/
def post_thread_data (ws : Ws) (thread_color thread_qty thread_or date_stamp : String) :
    Option Nat × Ws :=
  let new_qty := threadNewQty thread_qty
  let headers := ws.rowValues1
  let color_idx := find_exact_header_index headers "Color"
  let length_idx := find_exact_header_index headers "Length (ft)"
  let inout_idx := find_exact_header_index headers "IN/OUT"
  let date_idx := find_exact_header_index headers "Date"
  let or_idx := find_exact_header_index headers "O/R"
  match color_idx, length_idx, inout_idx with
  | some ci, some li, some ii =>
    let new_row := (ws.colValues (ci + 1)).length + 1
    let ws1 := ws.updateCell new_row (ci + 1) thread_color
    let ws2 := ws1.updateCell new_row (li + 1) new_qty.render
    let ws3 := ws2.updateCell new_row (ii + 1) "IN"
    let ws4 := match date_idx with
      | some di => ws3.updateCell new_row (di + 1) date_stamp
      | none => ws3
    let ws5 := match or_idx with
      | some oi => ws4.updateCell new_row (oi + 1) thread_or
      | none => ws4
    (some new_row, ws5)
  | _, _, _ => (none, ws)

/-! ### Inventory record creation -/

/-- `create_new_material_inventory`: creates the new Materials row,
cloning the On Order / Inventory template formulas from row 2 and
writing the literal Value formula.  The error value is the first
missing required header. -/
def create_new_material_inventory (ws_inv : Ws) (material unit min_inv reorder price : String) :
    Except String Unit × Ws :=
  let headers := ws_inv.rowValues1
  let required := ["Materials", "Unit", "Min. Inv.", "Reorder", "On Order", "Inventory", "Value"]
  match required.find? (fun r => !headers.contains r) with
  | some r => (.error r, ws_inv)
  | none =>
    let mat_col := headerIdx headers "Materials" + 1
    let unit_col := headerIdx headers "Unit" + 1
    let min_inv_col := headerIdx headers "Min. Inv." + 1
    let reorder_col := headerIdx headers "Reorder" + 1
    let on_order_col := headerIdx headers "On Order" + 1
    let inventory_col := headerIdx headers "Inventory" + 1
    let value_col := headerIdx headers "Value" + 1
    let new_row := (ws_inv.colValues mat_col).length + 1
    let ws1 := ws_inv.updateCell new_row mat_col material
    let ws2 := ws1.updateCell new_row unit_col unit
    let ws3 := ws2.updateCell new_row min_inv_col min_inv
    let ws4 := ws3.updateCell new_row reorder_col reorder
    let ws5 := ws4.updateCell new_row on_order_col (cloneValue (ws4.getCell 2 on_order_col) new_row)
    let ws6 := ws5.updateCell new_row inventory_col (cloneValue (ws5.getCell 2 inventory_col) new_row)
    let value_formula := "=" ++ price ++ "*(" ++ column_letter inventory_col ++ Nat.repr new_row
      ++ "+" ++ column_letter on_order_col ++ Nat.repr new_row ++ ")"
    (.ok (), ws6.updateCell new_row value_col value_formula)

/-- `create_new_fur_color_inventory`: as above under the Fur Color
header scheme (no Unit column). -/
def create_new_fur_color_inventory (ws : Ws) (fur_color min_inv reorder price : String) :
    Except String Unit × Ws :=
  let headers := ws.rowValues1
  let required := ["Fur Color", "Min Inv.", "Reorder.", "On Order.", "Inventory.", "Value."]
  match required.find? (fun r => !headers.contains r) with
  | some r => (.error r, ws)
  | none =>
    let fur_col := headerIdx headers "Fur Color" + 1
    let min_inv_col := headerIdx headers "Min Inv." + 1
    let reorder_col := headerIdx headers "Reorder." + 1
    let on_order_col := headerIdx headers "On Order." + 1
    let inv_col := headerIdx headers "Inventory." + 1
    let value_col := headerIdx headers "Value." + 1
    let new_row := (ws.colValues fur_col).length + 1
    let ws1 := ws.updateCell new_row fur_col fur_color
    let ws2 := ws1.updateCell new_row min_inv_col min_inv
    let ws3 := ws2.updateCell new_row reorder_col reorder
    let ws4 := ws3.updateCell new_row on_order_col (cloneValue (ws3.getCell 2 on_order_col) new_row)
    let ws5 := ws4.updateCell new_row inv_col (cloneValue (ws4.getCell 2 inv_col) new_row)
    let value_formula := "=" ++ price ++ "*(" ++ column_letter inv_col ++ Nat.repr new_row
      ++ "+" ++ column_letter on_order_col ++ Nat.repr new_row ++ ")"
    (.ok (), ws5.updateCell new_row value_col value_formula)

/-- `create_new_thread_inventory`: as above under the Thread Colors
header scheme (Inventory formula cloned before On Order, as in the
source). -/
def create_new_thread_inventory (ws : Ws) (thread_color min_inv reorder price : String) :
    Except String Unit × Ws :=
  let headers := ws.rowValues1
  let required := ["Thread Colors", "Min Inv..", "Reorder..", "On Order..", "Inventory..", "Value.."]
  match required.find? (fun r => !headers.contains r) with
  | some r => (.error r, ws)
  | none =>
    let t_col := headerIdx headers "Thread Colors" + 1
    let min_inv_col := headerIdx headers "Min Inv.." + 1
    let reorder_col := headerIdx headers "Reorder.." + 1
    let inv_col := headerIdx headers "Inventory.." + 1
    let on_order_col := headerIdx headers "On Order.." + 1
    let value_col := headerIdx headers "Value.." + 1
    let new_row := (ws.colValues t_col).length + 1
    let ws1 := ws.updateCell new_row t_col thread_color
    let ws2 := ws1.updateCell new_row min_inv_col min_inv
    let ws3 := ws2.updateCell new_row reorder_col reorder
    let ws4 := ws3.updateCell new_row inv_col (cloneValue (ws3.getCell 2 inv_col) new_row)
    let ws5 := ws4.updateCell new_row on_order_col (cloneValue (ws4.getCell 2 on_order_col) new_row)
    let value_formula := "=" ++ price ++ "*(" ++ column_letter inv_col ++ Nat.repr new_row
      ++ "+" ++ column_letter on_order_col ++ Nat.repr new_row ++ ")"
    (.ok (), ws5.updateCell new_row value_col value_formula)

/-! ### Membership tests and onboarding -/

/-- The membership test in `process_material_entry`: exact string
equality of the submitted name against the Materials column and the Fur
Color column (both read fresh from the store, header dropped). -/
def materialKnown (materials_list fur_list : List String) (material : String) : Bool :=
  materials_list.contains material || fur_list.contains material

/-- The membership test in `process_thread_entry`: trimmed,
case-insensitive comparison of the submitted name against the Thread
Colors column. -/
def threadKnown (threads_list : List String) (thread_color : String) : Bool :=
  threads_list.any (fun t => pyLower (pyStrip t) == pyLower (pyStrip thread_color))

/-- `needle` begins `hay`. -/
def listIsPref : List Char → List Char → Bool
  | [], _ => true
  | _ :: _, [] => false
  | a :: xs, b :: ys => a == b && listIsPref xs ys

/-- `needle` occurs somewhere in `hay` (Python `needle in hay`). -/
def containsSub (needle : List Char) : List Char → Bool
  | [] => listIsPref needle []
  | c :: cs => listIsPref needle (c :: cs) || containsSub needle cs

/-- Python `"fur" in material.lower()`: the test that routes onboarding
to the Fur Color scheme instead of the Materials scheme. -/
def nameHasFur (material : String) : Bool :=
  containsSub "fur".data (pyLower material).data

example : nameHasFur "Blue FURRY trim" = true := by decide
example : nameHasFur "Canvas" = false := by decide

/-- Search loop of `update_thread_inventory_cell`: first sheet row
(1-based, starting at 2) whose key cell, stripped, equals the colour. -/
def findThreadRow (t_col : Nat) (thread_color : String) : Nat → List Row → Option Nat
  | _, [] => none
  | i, row :: rest =>
    if pyStrip (row.getD t_col "") == thread_color then some i
    else findThreadRow t_col thread_color (i + 1) rest

/-- `update_thread_inventory_cell`: overwrite the `Inventory..` cell of
the colour's row with the submitted quantity (exact, stripped-cell
match; `True` is returned even when `Inventory..` is missing, as in the
source). -/
def update_thread_inventory_cell (ws : Ws) (thread_color new_quantity : String) : Bool × Ws :=
  let headers := ws.rowValues1
  let row_num : Option Nat :=
    if headers.contains "Thread Colors" then
      findThreadRow (headerIdx headers "Thread Colors") thread_color 2 (ws.getAllValues.drop 1)
    else none
  match row_num with
  | none => (false, ws)
  | some i =>
    if headers.contains "Inventory.." then
      (true, ws.updateCell i (headerIdx headers "Inventory.." + 1) new_quantity)
    else (true, ws)

/-! ### Process-wide state: worksheets and dimension caches -/

structure AppState where
  invWs : Ws
  logWs : Ws
  threadWs : Ws
  dirWs : Ws
  materialsCache : Option (List String)
  furColorsCache : Option (List String)
  threadsCache : Option (List String)
  companiesCache : Option (List String)
  productsCache : Option (List String)
deriving DecidableEq

def clear_materials_cache (st : AppState) : AppState := { st with materialsCache := none }

def clear_fur_colors_cache (st : AppState) : AppState := { st with furColorsCache := none }

def clear_threads_cache (st : AppState) : AppState := { st with threadsCache := none }

def clear_companies_cache (st : AppState) : AppState := { st with companiesCache := none }

def clear_products_cache (st : AppState) : AppState := { st with productsCache := none }

/-- The current non-empty entries of a named column of the Material
Inventory sheet, header dropped: what a fresh dimension load returns. -/
def storeColumn (ws : Ws) (header : String) : List String :=
  let headers := ws.rowValues1
  if headers.contains header then
    ((ws.colValues (headerIdx headers header + 1)).drop 1).filter (fun m => m != "")
  else []

/-- `get_materials`: cached read-through of the Materials column. -/
def get_materials (st : AppState) : List String × AppState :=
  match st.materialsCache with
  | some l => (l, st)
  | none =>
    if (st.invWs.rowValues1).contains "Materials" then
      let l := storeColumn st.invWs "Materials"
      (l, { st with materialsCache := some l })
    else ([], st)

/-- `get_fur_colors`: cached read-through of the Fur Color column. -/
def get_fur_colors (st : AppState) : List String × AppState :=
  match st.furColorsCache with
  | some l => (l, st)
  | none =>
    if (st.invWs.rowValues1).contains "Fur Color" then
      let l := storeColumn st.invWs "Fur Color"
      (l, { st with furColorsCache := some l })
    else ([], st)

/-- `get_threads_inventory`: cached read-through of the Thread Colors
column. -/
def get_threads_inventory (st : AppState) : List String × AppState :=
  match st.threadsCache with
  | some l => (l, st)
  | none =>
    if (st.invWs.rowValues1).contains "Thread Colors" then
      let l := storeColumn st.invWs "Thread Colors"
      (l, { st with threadsCache := some l })
    else ([], st)

/-- `create_new_company`: append a Directory row built in header order
from the dialog data, then clear the companies cache. -/
def create_new_company (st : AppState) (data : List (String × String)) : AppState :=
  let headers := st.dirWs.rowValues1
  let row := headers.map (fun h => (data.lookup h).getD "")
  { st with dirWs := ⟨st.dirWs.rows ++ [row]⟩, companiesCache := none }

/-! ### Movement processing -/

structure MaterialDialog where
  min_inv : String
  reorder : String
  price : String
  unit : String
deriving DecidableEq

/-- The tail of `process_material_entry`: append to the Material Log and
lift the result into the application state. -/
def materialLogAppend (st : AppState) (material qty order_status date_stamp : String) :
    Option Nat × AppState :=
  let p := update_material_log st.logWs material qty order_status date_stamp
  (match p.1 with | .ok n => some n | .error _ => none, { st with logWs := p.2 })

/-- `process_material_entry`.  The onboarding prompt answer `response`
and the dialog fields `dlg` are inputs (the UI collaborators); the date
stamp is the submission time.  Returns the appended log row on
success. -/
def process_material_entry (st : AppState) (material qty order_status : String)
    (response : Bool) (dlg : MaterialDialog) (date_stamp : String) :
    Option Nat × AppState :=
  let headers := st.invWs.rowValues1
  if headers.contains "Materials" && headers.contains "Fur Color" then
    let mat_col := headerIdx headers "Materials" + 1
    let fur_col := headerIdx headers "Fur Color" + 1
    let materials_list := (st.invWs.colValues mat_col).drop 1
    let fur_list := (st.invWs.colValues fur_col).drop 1
    if materialKnown materials_list fur_list material then
      materialLogAppend st material qty order_status date_stamp
    else if response then
      if dlg.min_inv == "" || dlg.reorder == "" || dlg.price == "" || dlg.unit == "" then
        (none, st)
      else
        let st1 :=
          if nameHasFur material then
            let p := create_new_fur_color_inventory st.invWs material dlg.min_inv dlg.reorder
              dlg.price
            { st with invWs := p.2, furColorsCache := none }
          else
            let p := create_new_material_inventory st.invWs material dlg.unit dlg.min_inv
              dlg.reorder dlg.price
            { st with invWs := p.2, materialsCache := none }
        materialLogAppend st1 material qty order_status date_stamp
    else (none, st)
  else (none, st)

/-- `process_thread_entry`.  When the colour is unknown and the
onboarding prompt is answered Yes, the source executes
`dialog = NewEntryDialog(...)` (line 569) — but `NewEntryDialog` is
defined nowhere in the module (only `NewMaterialDialog`,
`NewCompanyDialog` and `NewProductDialog` exist, and no local modules
are imported), so that branch raises `NameError` before any store
access; `.error` carries the raised exception.
`create_new_thread_inventory`, whose only call site is in that dead
branch, is therefore never reached, and no branch touches any
dimension cache. -/
def process_thread_entry (st : AppState) (thread_color qty : String)
    (response : Bool) : Except String (Bool × AppState) :=
  let headers := st.invWs.rowValues1
  if headers.contains "Thread Colors" then
    let t_col := headerIdx headers "Thread Colors" + 1
    let threads_list := (st.invWs.colValues t_col).drop 1
    if threadKnown threads_list thread_color then
      let p := update_thread_inventory_cell st.invWs thread_color qty
      .ok (true, { st with invWs := p.2 })
    else if response then
      .error "NameError: name NewEntryDialog is not defined"
    else .ok (false, st)
  else .ok (false, st)

/-! ### Order reconciliation -/

structure PendingOrder where
  row : Nat
  date : String
  kind : String
  name : String
  quantity : String
deriving DecidableEq

/-- The filter `load_orders_from_sheets` applies to each data row:
status column present, row long enough, status cell trimmed and
lowercased equal to `"ordered"`. -/
def matchesOrdered (or_idx : Option Nat) (row : Row) : Bool :=
  match or_idx with
  | some o => decide (o < row.length) && (pyLower (pyStrip (row.getD o "")) == "ordered")
  | none => false

/-- Material-table scan loop of `load_orders_from_sheets`.  A missing
Date / Material / Yards header makes the first matching row raise in the
source; the exception is swallowed, so the rows collected so far are
kept and the rest of the table is dropped (modelled by returning `[]`
for the remainder). -/
def scanMaterialRows (or_idx date_idx material_idx yards_idx : Option Nat) :
    Nat → List Row → List PendingOrder
  | _, [] => []
  | i, row :: rest =>
    if matchesOrdered or_idx row then
      match date_idx, material_idx, yards_idx with
      | some d, some m, some y =>
        { row := i
          date := if d < row.length then row.getD d "" else ""
          kind := "Material"
          name := if m < row.length then row.getD m "" else ""
          quantity := if y < row.length then row.getD y "" else "" }
          :: scanMaterialRows or_idx date_idx material_idx yards_idx (i + 1) rest
      | _, _, _ => []
    else scanMaterialRows or_idx date_idx material_idx yards_idx (i + 1) rest

/-- Thread-table scan loop of `load_orders_from_sheets`: like the
material loop, but the stored length is converted to a cones display
string (raw cell text when it does not parse as a number); a matching
row whose length cell cannot even be indexed aborts the remainder. -/
def scanThreadRows (or_idx date_idx color_idx length_idx : Option Nat) :
    Nat → List Row → List PendingOrder
  | _, [] => []
  | i, row :: rest =>
    if matchesOrdered or_idx row then
      match length_idx with
      | none => []
      | some li =>
        if li < row.length then
          match date_idx, color_idx with
          | some d, some c =>
            { row := i
              date := if d < row.length then row.getD d "" else ""
              kind := "Thread"
              name := if c < row.length then row.getD c "" else ""
              quantity :=
                match pyFloat (row.getD li "") with
                | some v => conesDisplay v
                | none => row.getD li "" }
              :: scanThreadRows or_idx date_idx color_idx length_idx (i + 1) rest
          | _, _ => []
        else []
    else scanThreadRows or_idx date_idx color_idx length_idx (i + 1) rest

/-- The Material Log half of `load_orders_from_sheets`; `none` stands
for a table that cannot be opened (the swallowed scan failure). -/
def scanMaterialTable (wsLog? : Option Ws) : List PendingOrder :=
  match wsLog? with
  | none => []
  | some ws =>
    let data := ws.getAllValues
    if 2 ≤ data.length then
      let headers := data.getD 0 []
      scanMaterialRows (find_exact_header_index headers "O/R")
        (find_exact_header_index headers "Date")
        (find_exact_header_index headers "Material")
        (find_exact_header_index headers "Yards") 2 (data.drop 1)
    else []

/-- The Thread Data half of `load_orders_from_sheets`. -/
def scanThreadTable (wsThread? : Option Ws) : List PendingOrder :=
  match wsThread? with
  | none => []
  | some ws =>
    let data := ws.getAllValues
    if 2 ≤ data.length then
      let headers := data.getD 0 []
      scanThreadRows (find_exact_header_index headers "O/R")
        (find_exact_header_index headers "Date")
        (find_exact_header_index headers "Color")
        (find_exact_header_index headers "Length (ft)") 2 (data.drop 1)
    else []

/-- `load_orders_from_sheets`: material scan results followed by thread
scan results. -/
def load_orders_from_sheets (wsLog? wsThread? : Option Ws) : List PendingOrder :=
  scanMaterialTable wsLog? ++ scanThreadTable wsThread?

/-- The per-reference mutation of `InventoryOrderedTab.receive_orders`
once the `O/R` header has resolved: set the status cell to `Received`,
then stamp the `Date` cell when a Date column exists. -/
def markReceived (ws : Ws) (row_number : Nat) (new_date_stamp : String) : Ws :=
  let ws1 := ws.updateCell row_number (headerIdx ws.rowValues1 "O/R" + 1) "Received"
  if ws.rowValues1.contains "Date" then
    ws1.updateCell row_number (headerIdx ws.rowValues1 "Date" + 1) new_date_stamp
  else ws1

/-- `InventoryOrderedTab.receive_orders`: process the selected
references in order; for each, mark the row `Received` and (when a Date
column exists) stamp the receive time; a table missing its `O/R` header
makes the reference fail with a reported error and processing
continues.  The third component collects the failed references. -/
def receive_orders (wsM wsT : Ws) (new_date_stamp : String) :
    List (String × Nat) → Ws × Ws × List (String × Nat)
  | [] => (wsM, wsT, [])
  | (k, row_number) :: rest =>
    if k == "Material" then
      if wsM.rowValues1.contains "O/R" then
        receive_orders (markReceived wsM row_number new_date_stamp) wsT new_date_stamp rest
      else
        let p := receive_orders wsM wsT new_date_stamp rest
        (p.1, p.2.1, (k, row_number) :: p.2.2)
    else if k == "Thread" then
      if wsT.rowValues1.contains "O/R" then
        receive_orders wsM (markReceived wsT row_number new_date_stamp) new_date_stamp rest
      else
        let p := receive_orders wsM wsT new_date_stamp rest
        (p.1, p.2.1, (k, row_number) :: p.2.2)
    else
      receive_orders wsM wsT new_date_stamp rest

/-! ### Basic lemmas about the worksheet model -/

theorem getElem?_padTo {α : Type} (n : Nat) (x : α) (l : List α) (i : Nat) :
    (padTo n x l)[i]? = if i < l.length then l[i]? else if i < n then some x else none := by
  unfold padTo
  by_cases h : i < l.length
  · rw [List.getElem?_append_left h]
    simp [h]
  · rw [List.getElem?_append_right (Nat.le_of_not_lt h), List.getElem?_replicate]
    have hiff : i - l.length < n - l.length ↔ i < n := by omega
    simp [h, hiff]

theorem getD_padTo {α : Type} (n : Nat) (d : α) (l : List α) (i : Nat) :
    (padTo n d l).getD i d = l.getD i d := by
  simp only [List.getD_eq_getElem?_getD, getElem?_padTo]
  by_cases h : i < l.length
  · simp [h]
  · rw [List.getElem?_eq_none (Nat.le_of_not_lt h)]
    simp [h]
    split <;> rfl

theorem length_padTo {α : Type} (n : Nat) (x : α) (l : List α) :
    (padTo n x l).length = max l.length n := by
  simp [padTo]
  omega

theorem getD_set_self {α : Type} (l : List α) (i : Nat) (a d : α) (h : i < l.length) :
    (l.set i a).getD i d = a := by
  rw [List.getD_eq_getElem?_getD, List.getElem?_set_self h]
  rfl

theorem getD_set_ne {α : Type} (l : List α) {i j : Nat} (a d : α) (h : i ≠ j) :
    (l.set i a).getD j d = l.getD j d := by
  rw [List.getD_eq_getElem?_getD, List.getElem?_set_ne h, ← List.getD_eq_getElem?_getD]

theorem Ws.getCell_updateCell_self (ws : Ws) {r c : Nat} (v : String)
    (hr : 1 ≤ r) (hc : 1 ≤ c) : (ws.updateCell r c v).getCell r c = v := by
  have hrlen : r - 1 < (padTo r ([] : Row) ws.rows).length := by
    rw [length_padTo]; omega
  have hclen : c - 1 <
      (padTo c "" ((padTo r ([] : Row) ws.rows).getD (r - 1) [])).length := by
    rw [length_padTo]; omega
  dsimp only [Ws.updateCell, Ws.getCell]
  rw [getD_set_self _ _ _ _ hrlen, getD_set_self _ _ _ _ hclen]

theorem Ws.getCell_updateCell_ne (ws : Ws) {r c r' c' : Nat} (v : String)
    (hr : 1 ≤ r) (hc : 1 ≤ c) (hr' : 1 ≤ r') (hc' : 1 ≤ c')
    (hne : r ≠ r' ∨ c ≠ c') :
    (ws.updateCell r' c' v).getCell r c = ws.getCell r c := by
  dsimp only [Ws.updateCell, Ws.getCell]
  rcases eq_or_ne r r' with rfl | hrr
  · have hcc : c ≠ c' := by
      rcases hne with h | h
      · exact absurd rfl h
      · exact h
    have hrlen : r - 1 < (padTo r ([] : Row) ws.rows).length := by
      rw [length_padTo]; omega
    rw [getD_set_self _ _ _ _ hrlen, getD_set_ne _ _ _ (by omega : c' - 1 ≠ c - 1),
      getD_padTo, getD_padTo]
  · rw [getD_set_ne _ _ _ (by omega : r' - 1 ≠ r - 1), getD_padTo]

theorem Ws.rowValues1_updateCell (ws : Ws) {r c : Nat} (v : String) (hr : 2 ≤ r) :
    (ws.updateCell r c v).rowValues1 = ws.rowValues1 := by
  dsimp only [Ws.updateCell, Ws.rowValues1]
  congr 1
  rw [getD_set_ne _ _ _ (by omega : r - 1 ≠ 0), getD_padTo]

/-! ### Header-index lemmas -/

theorem mem_of_contains {l : List String} {t : String} (h : l.contains t = true) : t ∈ l := by
  simpa using h

theorem headerIdx_getD (headers : List String) (t : String)
    (h : headers.contains t = true) : headers.getD (headerIdx headers t) "" = t := by
  have hex : ∃ x ∈ headers, (x == t) = true := ⟨t, mem_of_contains h, by simp⟩
  have hlt : List.findIdx (· == t) headers < headers.length :=
    List.findIdx_lt_length_of_exists hex
  unfold headerIdx
  rw [List.getD_eq_getElem?_getD, List.getElem?_eq_getElem hlt]
  have hp := List.findIdx_getElem (w := hlt)
  simpa using hp

theorem headerIdx_ne (headers : List String) {a b : String}
    (ha : headers.contains a = true) (hb : headers.contains b = true) (hab : a ≠ b) :
    headerIdx headers a ≠ headerIdx headers b := by
  intro h
  apply hab
  rw [← headerIdx_getD headers a ha, h, headerIdx_getD headers b hb]

theorem find_exact_header_index_eq (headers : List String) (t : String)
    (h : headers.contains t = true) :
    find_exact_header_index headers t = some (headerIdx headers t) := by
  unfold find_exact_header_index headerIdx
  exact List.findIdx?_eq_some_of_exists ⟨t, mem_of_contains h, by simp⟩

theorem find_exact_header_index_getD {headers : List String} {t : String} {i : Nat}
    (h : find_exact_header_index headers t = some i) : headers.getD i "" = t := by
  rw [find_exact_header_index] at h
  obtain ⟨hlt, hp, -⟩ := List.findIdx?_eq_some_iff_getElem.mp h
  rw [List.getD_eq_getElem?_getD, List.getElem?_eq_getElem hlt]
  simpa using hp

theorem find_exact_header_index_ne {headers : List String} {a b : String} {i j : Nat}
    (ha : find_exact_header_index headers a = some i)
    (hb : find_exact_header_index headers b = some j) (hab : a ≠ b) : i ≠ j := by
  intro h
  apply hab
  rw [← find_exact_header_index_getD ha, h, find_exact_header_index_getD hb]

theorem trimTrailingEmpty_decomp (l : List String) :
    l = trimTrailingEmpty l ++ (l.reverse.takeWhile (· == "")).reverse := by
  unfold trimTrailingEmpty
  conv_lhs => rw [← List.reverse_reverse l,
    ← List.takeWhile_append_dropWhile (p := (· == "")) (l := l.reverse)]
  rw [List.reverse_append]

/-- The untrimmed first row (what `get_all_values` exposes) resolves a
present header to the same position as the trimmed `row_values(1)`. -/
theorem find_exact_header_index_untrimmed (ws : Ws) (t : String)
    (h : (ws.rowValues1).contains t = true) :
    find_exact_header_index (ws.rows.getD 0 []) t = some (headerIdx ws.rowValues1 t) := by
  have hdec := trimTrailingEmpty_decomp (ws.rows.getD 0 [])
  have hrv : ws.rowValues1 = trimTrailingEmpty (ws.rows.getD 0 []) := rfl
  rw [← hrv] at hdec
  unfold find_exact_header_index
  rw [hdec, List.findIdx?_append]
  have := find_exact_header_index_eq ws.rowValues1 t h
  unfold find_exact_header_index at this
  rw [this]
  rfl

theorem getD_drop {α : Type} (l : List α) (n i : Nat) (d : α) :
    (l.drop n).getD i d = l.getD (n + i) d := by
  simp [List.getD_eq_getElem?_getD, List.getElem?_drop]

/-! ### Row-write chains (proof infrastructure) -/

/-- A sequence of `update_cell` writes into one row. -/
def writeRow (ws : Ws) (r : Nat) : List (Nat × String) → Ws
  | [] => ws
  | (c, v) :: rest => writeRow (ws.updateCell r c v) r rest

theorem writeRow_getCell_notMem (ws : Ws) (r c : Nat) (updates : List (Nat × String))
    (hr : 1 ≤ r) (hc : 1 ≤ c) (hall : ∀ p ∈ updates, 1 ≤ p.1)
    (h : ∀ p ∈ updates, p.1 ≠ c) :
    (writeRow ws r updates).getCell r c = ws.getCell r c := by
  induction updates generalizing ws with
  | nil => rfl
  | cons p rest ih =>
    obtain ⟨c', v'⟩ := p
    have h1 : (1 : Nat) ≤ c' := hall (c', v') (by simp)
    have hne : c' ≠ c := h (c', v') (by simp)
    rw [writeRow, ih _ (fun p hp => hall p (by simp [hp])) (fun p hp => h p (by simp [hp])),
      Ws.getCell_updateCell_ne _ _ hr hc hr h1 (Or.inr (Ne.symm hne))]

theorem writeRow_getCell_first (ws : Ws) (r c : Nat) (v : String)
    (rest : List (Nat × String)) (hr : 1 ≤ r) (hc : 1 ≤ c)
    (hall : ∀ p ∈ rest, 1 ≤ p.1) (h : ∀ p ∈ rest, p.1 ≠ c) :
    (writeRow (ws.updateCell r c v) r rest).getCell r c = v := by
  rw [writeRow_getCell_notMem _ _ _ _ hr hc hall h,
    Ws.getCell_updateCell_self _ _ hr hc]

theorem Ws.rowValues1_writeRow (ws : Ws) {r : Nat} (updates : List (Nat × String))
    (hr : 2 ≤ r) : (writeRow ws r updates).rowValues1 = ws.rowValues1 := by
  induction updates generalizing ws with
  | nil => rfl
  | cons p rest ih =>
    obtain ⟨c', v'⟩ := p
    rw [writeRow, ih, Ws.rowValues1_updateCell _ _ hr]

/-! ### Concrete fixtures used by counterexamples and witnesses -/

/-- A Thread Data table holding only its header row. -/
def threadDataWs0 : Ws := ⟨[["Color", "Length (ft)", "IN/OUT", "O/R", "Date"]]⟩

/-- `threadDataWs0` after submitting 2 cones of Teal as Ordered. -/
def threadDataWs1 : Ws := (post_thread_data threadDataWs0 "Teal" "2" "Ordered" "d0").2

/-- A Material Log whose key column has an embedded empty cell (row 3)
below the header and a later non-empty cell (row 4). -/
def materialLogGapWs : Ws :=
  ⟨[["Material", "Yards", "IN/OUT", "O/R", "Date"],
    ["A", "1", "IN", "Ordered", "d1"],
    ["", "", "", "", ""],
    ["B", "2", "IN", "Ordered", "d2"]]⟩

/-- A Material Inventory sheet holding the thread-colour scheme with one
onboarded colour. -/
def threadInvWs0 : Ws :=
  ⟨[["Thread Colors", "Min Inv..", "Reorder..", "On Order..", "Inventory..", "Value.."],
    ["Red", "1", "1", "0", "0", "0"]]⟩

/-- Application state in which the thread-colours cache has been loaded
(and agrees with the store). -/
def threadAppSt0 : AppState :=
  { invWs := threadInvWs0, logWs := ⟨[]⟩, threadWs := ⟨[]⟩, dirWs := ⟨[]⟩,
    materialsCache := none, furColorsCache := none, threadsCache := some ["Red"],
    companiesCache := none, productsCache := none }


/-! ## Claims -/

/-- **C1.**  Cloning the template-row (row 2) formula to a new target
row rewrites every column-letter reference immediately followed by the
row number 2 — optionally prefixed with an absolute-reference marker —
to the target row and leaves every other character (absolute markers
included) unchanged: `=C2-D2` cloned to row 7 gives `=C7-D7`, `=$C2-D2`
gives `=$C7-D7`, and an empty template cell clones as the literal `0`.
Checked for the rewrite used by the `create_new_*_inventory` functions
(`cloneValue` / `reSubRow2`) and for the `submit_order` variant
(`reSubRow2Dollar`). -/
theorem claim_C1_formula_clone :
    cloneValue "=C2-D2" 7 = "=C7-D7" ∧
    cloneValue "=$C2-D2" 7 = "=$C7-D7" ∧
    cloneValue "" 7 = "0" ∧
    reSubRow2Dollar 7 "=C2-D2" = "=C7-D7" ∧
    reSubRow2Dollar 7 "=$C2-D2" = "=$C7-D7" ∧
    reSubRow2 10 "=SUM(C2:D2)*E22+F2" = "=SUM(C10:D10)*E22+F10" ∧
    reSubRow2Dollar 12 "=$A$2*B2" = "=$A$12*B12" := by
  refine ⟨?_, ?_, ?_, ?_, ?_, ?_, ?_⟩ <;> decide

/-- **C8.**  The onboarding membership check is exact string equality
for material movements (against the Materials and Fur Color columns)
but trimmed case-insensitive comparison for thread movements (against
the Thread Colors column); `"red"` against a stored `"Red"` is unknown
as a material yet known as a thread colour. -/
theorem claim_C8_membership_case_sensitivity :
    (∀ (materials fur : List String) (m : String),
        materialKnown materials fur m = true ↔ m ∈ materials ∨ m ∈ fur) ∧
    (∀ (threads : List String) (c : String),
        threadKnown threads c = true ↔
          ∃ t ∈ threads, pyLower (pyStrip t) = pyLower (pyStrip c)) ∧
    materialKnown ["Red"] [] "red" = false ∧
    threadKnown ["Red"] "red" = true := by
  refine ⟨?_, ?_, by decide, by decide⟩
  · intro materials fur m
    simp [materialKnown]
  · intro threads c
    simp [threadKnown]

/-- **C3.**  Thread quantities round-trip through the fixed factor
16500: a submitted quantity parsing to the number `q` is stored as
`q * 16500` (submitting `2` cones stores `33000` in the Length (ft)
column), and reconciliation displays a stored length `L` as `L / 16500`
formatted to two decimals with a `" cones"` suffix (stored `33000`
displays as `"2.00 cones"`), shown end to end through
`post_thread_data` and `load_orders_from_sheets`. -/
theorem claim_C3_thread_quantity_round_trip :
    (∀ (s : String) (f : Frac), pyFloat s = some f →
        (threadNewQty s).val = f.val * 16500) ∧
    threadNewQty "2" = ⟨33000, 1⟩ ∧
    (post_thread_data threadDataWs0 "Teal" "2" "Ordered" "d0").1 = some 2 ∧
    threadDataWs1.getCell 2 2 = "33000" ∧
    conesDisplay ⟨33000, 1⟩ = "2.00 cones" ∧
    load_orders_from_sheets none (some threadDataWs1) =
      [{ row := 2, date := "d0", kind := "Thread", name := "Teal",
         quantity := "2.00 cones" }] := by
  refine ⟨?_, by decide, by decide, by decide, by decide, by decide⟩
  intro s f h
  unfold threadNewQty
  rw [h]
  unfold Frac.val
  push_cast
  ring

/-- Witness for C3 at the concrete quantity string `"2"`. -/
theorem claim_C3_witness :
    pyFloat "2" = some ⟨2, 1⟩ ∧ (threadNewQty "2").val = (Frac.mk 2 1).val * 16500 :=
  ⟨by decide, claim_C3_thread_quantity_round_trip.1 "2" ⟨2, 1⟩ (by decide)⟩

/-- **C7.**  When a required column name is missing from the target
table's header row, the operation reports a missing column name (a
required header that is indeed absent) and performs no cell writes at
all: the worksheet is returned unchanged.  Checked for the material-log
append and for thread inventory-record creation. -/
theorem claim_C7_missing_header_no_writes :
    (∀ (ws : Ws) (m q s d : String),
      (∃ r ∈ ["Material", "Yards", "IN/OUT", "O/R", "Date"],
          ws.rowValues1.contains r = false) →
      (∃ r₀ ∈ ["Material", "Yards", "IN/OUT", "O/R", "Date"],
          ws.rowValues1.contains r₀ = false ∧
          (update_material_log ws m q s d).1 = .error r₀) ∧
      (update_material_log ws m q s d).2 = ws) ∧
    (∀ (ws : Ws) (t mi re pr : String),
      (∃ r ∈ ["Thread Colors", "Min Inv..", "Reorder..", "On Order..", "Inventory..",
          "Value.."], ws.rowValues1.contains r = false) →
      (∃ r₀ ∈ ["Thread Colors", "Min Inv..", "Reorder..", "On Order..", "Inventory..",
          "Value.."], ws.rowValues1.contains r₀ = false ∧
          (create_new_thread_inventory ws t mi re pr).1 = .error r₀) ∧
      (create_new_thread_inventory ws t mi re pr).2 = ws) := by
  constructor
  · intro ws m q s d h
    obtain ⟨r, hrmem, hrabs⟩ := h
    have hsome : (["Material", "Yards", "IN/OUT", "O/R", "Date"].find?
        (fun r => !ws.rowValues1.contains r)).isSome := by
      rw [List.find?_isSome]
      refine ⟨r, hrmem, ?_⟩
      show (!ws.rowValues1.contains r) = true
      rw [hrabs]
      rfl
    obtain ⟨r₀, hfind⟩ := Option.isSome_iff_exists.mp hsome
    have hmem := List.mem_of_find?_eq_some hfind
    have habs : ws.rowValues1.contains r₀ = false := by
      have hp := List.find?_some hfind
      simp only [Bool.not_eq_true'] at hp
      exact hp
    constructor
    · refine ⟨r₀, hmem, habs, ?_⟩
      simp only [update_material_log]
      rw [hfind]
    · simp only [update_material_log]
      rw [hfind]
  · intro ws t mi re pr h
    obtain ⟨r, hrmem, hrabs⟩ := h
    have hsome : (["Thread Colors", "Min Inv..", "Reorder..", "On Order..", "Inventory..",
        "Value.."].find? (fun r => !ws.rowValues1.contains r)).isSome := by
      rw [List.find?_isSome]
      refine ⟨r, hrmem, ?_⟩
      show (!ws.rowValues1.contains r) = true
      rw [hrabs]
      rfl
    obtain ⟨r₀, hfind⟩ := Option.isSome_iff_exists.mp hsome
    have hmem := List.mem_of_find?_eq_some hfind
    have habs : ws.rowValues1.contains r₀ = false := by
      have hp := List.find?_some hfind
      simp only [Bool.not_eq_true'] at hp
      exact hp
    constructor
    · refine ⟨r₀, hmem, habs, ?_⟩
      simp only [create_new_thread_inventory]
      rw [hfind]
    · simp only [create_new_thread_inventory]
      rw [hfind]

/-- Witness for C7: a Material Log missing `O/R` and a Thread Data
sheet missing `Value..`. -/
theorem claim_C7_witness :
    (∃ r ∈ ["Material", "Yards", "IN/OUT", "O/R", "Date"],
        (Ws.mk [["Material", "Yards"]]).rowValues1.contains r = false) ∧
    ((∃ r₀ ∈ ["Material", "Yards", "IN/OUT", "O/R", "Date"],
        (Ws.mk [["Material", "Yards"]]).rowValues1.contains r₀ = false ∧
        (update_material_log (Ws.mk [["Material", "Yards"]]) "A" "1" "Ordered" "d").1 =
          .error r₀) ∧
      (update_material_log (Ws.mk [["Material", "Yards"]]) "A" "1" "Ordered" "d").2 =
        Ws.mk [["Material", "Yards"]]) :=
  ⟨⟨"IN/OUT", by simp, by decide⟩,
    claim_C7_missing_header_no_writes.1 (Ws.mk [["Material", "Yards"]]) "A" "1" "Ordered" "d"
      ⟨"IN/OUT", by simp, by decide⟩⟩

/-- **C2 (code bug).**  The claim's thread-colour clause cannot even
be exercised: the program cannot onboard a thread colour at all.  At
the failing input — Thread Colors store column `["Red"]`, thread cache
loaded as `["Red"]`, the unknown colour `Blue` submitted with the
onboarding prompt answered Yes — `process_thread_entry` raises
`NameError` (`NewEntryDialog` is undefined in the module), so no
InventoryRecord is created, the store and every cache stay untouched,
and no cache invalidation ever happens, where the claim and the spec's
onboarding flow expect the record to be created and the thread-colours
cache to be set to absent immediately after the mutation. -/
theorem claim_C2_thread_onboarding_crashes :
    storeColumn threadAppSt0.invWs "Thread Colors" = ["Red"] ∧
    threadAppSt0.threadsCache = some ["Red"] ∧
    threadKnown ((threadAppSt0.invWs.colValues
      (headerIdx threadAppSt0.invWs.rowValues1 "Thread Colors" + 1)).drop 1) "Blue" = false ∧
    process_thread_entry threadAppSt0 "Blue" "2" true =
      .error "NameError: name NewEntryDialog is not defined" := by
  refine ⟨by decide, by decide, by decide, rfl⟩

/-- Reading back each of five writes into one row at pairwise-distinct
columns. -/
theorem getCell_chain5 (ws : Ws) (r c1 c2 c3 c4 c5 : Nat) (v1 v2 v3 v4 v5 : String)
    (hr : 1 ≤ r) (h1 : 1 ≤ c1) (h2 : 1 ≤ c2) (h3 : 1 ≤ c3) (h4 : 1 ≤ c4) (h5 : 1 ≤ c5)
    (d12 : c1 ≠ c2) (d13 : c1 ≠ c3) (d14 : c1 ≠ c4) (d15 : c1 ≠ c5)
    (d23 : c2 ≠ c3) (d24 : c2 ≠ c4) (d25 : c2 ≠ c5)
    (d34 : c3 ≠ c4) (d35 : c3 ≠ c5) (d45 : c4 ≠ c5) :
    (((((ws.updateCell r c1 v1).updateCell r c2 v2).updateCell r c3 v3).updateCell r c4
        v4).updateCell r c5 v5).getCell r c1 = v1 ∧
    (((((ws.updateCell r c1 v1).updateCell r c2 v2).updateCell r c3 v3).updateCell r c4
        v4).updateCell r c5 v5).getCell r c2 = v2 ∧
    (((((ws.updateCell r c1 v1).updateCell r c2 v2).updateCell r c3 v3).updateCell r c4
        v4).updateCell r c5 v5).getCell r c3 = v3 ∧
    (((((ws.updateCell r c1 v1).updateCell r c2 v2).updateCell r c3 v3).updateCell r c4
        v4).updateCell r c5 v5).getCell r c4 = v4 ∧
    (((((ws.updateCell r c1 v1).updateCell r c2 v2).updateCell r c3 v3).updateCell r c4
        v4).updateCell r c5 v5).getCell r c5 = v5 := by
  refine ⟨?_, ?_, ?_, ?_, ?_⟩
  · rw [Ws.getCell_updateCell_ne _ _ hr h1 hr h5 (Or.inr d15),
      Ws.getCell_updateCell_ne _ _ hr h1 hr h4 (Or.inr d14),
      Ws.getCell_updateCell_ne _ _ hr h1 hr h3 (Or.inr d13),
      Ws.getCell_updateCell_ne _ _ hr h1 hr h2 (Or.inr d12),
      Ws.getCell_updateCell_self _ _ hr h1]
  · rw [Ws.getCell_updateCell_ne _ _ hr h2 hr h5 (Or.inr d25),
      Ws.getCell_updateCell_ne _ _ hr h2 hr h4 (Or.inr d24),
      Ws.getCell_updateCell_ne _ _ hr h2 hr h3 (Or.inr d23),
      Ws.getCell_updateCell_self _ _ hr h2]
  · rw [Ws.getCell_updateCell_ne _ _ hr h3 hr h5 (Or.inr d35),
      Ws.getCell_updateCell_ne _ _ hr h3 hr h4 (Or.inr d34),
      Ws.getCell_updateCell_self _ _ hr h3]
  · rw [Ws.getCell_updateCell_ne _ _ hr h4 hr h5 (Or.inr d45),
      Ws.getCell_updateCell_self _ _ hr h4]
  · rw [Ws.getCell_updateCell_self _ _ hr h5]

theorem not_bang_of_contains {l : List String} {t : String} (h : l.contains t = true) :
    ¬ (!l.contains t) = true := by
  rw [h]
  simp

/-- **C4 counterexample.**  In a Material Log whose key column holds
`Material, A, (empty), B`, the append targets row 5 (one past the last
non-empty key cell), while `1 + count(non-empty values in the key
column)` is 4: the code's target row is not what the claim states. -/
theorem claim_C4_counterexample :
    (update_material_log materialLogGapWs "C" "3" "Ordered" "d3").1 = .ok 5 ∧
    headerIdx materialLogGapWs.rowValues1 "Material" + 1 = 1 ∧
    ((materialLogGapWs.colValues 1).filter (fun v => v != "")).length + 1 = 4 ∧
    (update_material_log materialLogGapWs "C" "3" "Ordered" "d3").1 ≠
      .ok (((materialLogGapWs.colValues 1).filter (fun v => v != "")).length + 1) := by
  refine ⟨rfl, by decide, by decide, ?_⟩
  intro hc
  have h5 : (update_material_log materialLogGapWs "C" "3" "Ordered" "d3").1 = .ok 5 := rfl
  rw [h5] at hc
  exact absurd (Except.ok.inj hc) (by decide)

/-- **C4 amended.**  For both movement appends, once the required
headers resolve the target row is `1 + length(key-column values)`,
where the store's column read runs to the last non-empty cell and keeps
embedded empty cells (this equals `1 + count(non-empty values)` exactly
when the key column has no embedded gap); the name, quantity, direction
`IN`, order status and timestamp are written into that row (for Thread
Data the status and date land in the optional `O/R` and `Date` columns,
here required to resolve as well; the stored thread quantity is the
converted length). -/
theorem claim_C4_append_target_row :
    (∀ (ws : Ws) (m q s d : String),
      (∀ r ∈ ["Material", "Yards", "IN/OUT", "O/R", "Date"],
          ws.rowValues1.contains r = true) →
      (update_material_log ws m q s d).1 =
        .ok ((ws.colValues (headerIdx ws.rowValues1 "Material" + 1)).length + 1) ∧
      ((update_material_log ws m q s d).2.getCell
          ((ws.colValues (headerIdx ws.rowValues1 "Material" + 1)).length + 1)
          (headerIdx ws.rowValues1 "Material" + 1) = m ∧
        (update_material_log ws m q s d).2.getCell
          ((ws.colValues (headerIdx ws.rowValues1 "Material" + 1)).length + 1)
          (headerIdx ws.rowValues1 "Yards" + 1) = q ∧
        (update_material_log ws m q s d).2.getCell
          ((ws.colValues (headerIdx ws.rowValues1 "Material" + 1)).length + 1)
          (headerIdx ws.rowValues1 "IN/OUT" + 1) = "IN" ∧
        (update_material_log ws m q s d).2.getCell
          ((ws.colValues (headerIdx ws.rowValues1 "Material" + 1)).length + 1)
          (headerIdx ws.rowValues1 "O/R" + 1) = s ∧
        (update_material_log ws m q s d).2.getCell
          ((ws.colValues (headerIdx ws.rowValues1 "Material" + 1)).length + 1)
          (headerIdx ws.rowValues1 "Date" + 1) = d)) ∧
    (∀ (ws : Ws) (color qty or_ ds : String) (ci li ii di oi : Nat),
      find_exact_header_index ws.rowValues1 "Color" = some ci →
      find_exact_header_index ws.rowValues1 "Length (ft)" = some li →
      find_exact_header_index ws.rowValues1 "IN/OUT" = some ii →
      find_exact_header_index ws.rowValues1 "Date" = some di →
      find_exact_header_index ws.rowValues1 "O/R" = some oi →
      (post_thread_data ws color qty or_ ds).1 = some ((ws.colValues (ci + 1)).length + 1) ∧
      ((post_thread_data ws color qty or_ ds).2.getCell
          ((ws.colValues (ci + 1)).length + 1) (ci + 1) = color ∧
        (post_thread_data ws color qty or_ ds).2.getCell
          ((ws.colValues (ci + 1)).length + 1) (li + 1) = (threadNewQty qty).render ∧
        (post_thread_data ws color qty or_ ds).2.getCell
          ((ws.colValues (ci + 1)).length + 1) (ii + 1) = "IN" ∧
        (post_thread_data ws color qty or_ ds).2.getCell
          ((ws.colValues (ci + 1)).length + 1) (di + 1) = ds ∧
        (post_thread_data ws color qty or_ ds).2.getCell
          ((ws.colValues (ci + 1)).length + 1) (oi + 1) = or_)) := by
  constructor
  · intro ws m q s d h
    have hMat := h "Material" (by simp)
    have hY := h "Yards" (by simp)
    have hIO := h "IN/OUT" (by simp)
    have hOR := h "O/R" (by simp)
    have hD := h "Date" (by simp)
    have hfind : (["Material", "Yards", "IN/OUT", "O/R", "Date"].find?
        (fun r => !ws.rowValues1.contains r)) = none := by
      rw [List.find?_eq_none]
      intro x hx
      simp only [List.mem_cons, List.not_mem_nil, or_false] at hx
      rcases hx with rfl | rfl | rfl | rfl | rfl
      · exact not_bang_of_contains hMat
      · exact not_bang_of_contains hY
      · exact not_bang_of_contains hIO
      · exact not_bang_of_contains hOR
      · exact not_bang_of_contains hD
    have hch := getCell_chain5 ws ((ws.colValues (headerIdx ws.rowValues1 "Material" + 1)).length + 1)
      (headerIdx ws.rowValues1 "Material" + 1) (headerIdx ws.rowValues1 "Yards" + 1)
      (headerIdx ws.rowValues1 "IN/OUT" + 1) (headerIdx ws.rowValues1 "O/R" + 1)
      (headerIdx ws.rowValues1 "Date" + 1) m q "IN" s d
      (by omega) (by omega) (by omega) (by omega) (by omega) (by omega)
      (by have := headerIdx_ne ws.rowValues1 hMat hY (by decide); omega)
      (by have := headerIdx_ne ws.rowValues1 hMat hIO (by decide); omega)
      (by have := headerIdx_ne ws.rowValues1 hMat hOR (by decide); omega)
      (by have := headerIdx_ne ws.rowValues1 hMat hD (by decide); omega)
      (by have := headerIdx_ne ws.rowValues1 hY hIO (by decide); omega)
      (by have := headerIdx_ne ws.rowValues1 hY hOR (by decide); omega)
      (by have := headerIdx_ne ws.rowValues1 hY hD (by decide); omega)
      (by have := headerIdx_ne ws.rowValues1 hIO hOR (by decide); omega)
      (by have := headerIdx_ne ws.rowValues1 hIO hD (by decide); omega)
      (by have := headerIdx_ne ws.rowValues1 hOR hD (by decide); omega)
    constructor
    · simp only [update_material_log]
      rw [hfind]
    · simp only [update_material_log]
      rw [hfind]
      exact hch
  · intro ws color qty or_ ds ci li ii di oi hc hl hi hd ho
    have hch := getCell_chain5 ws ((ws.colValues (ci + 1)).length + 1)
      (ci + 1) (li + 1) (ii + 1) (di + 1) (oi + 1)
      color (threadNewQty qty).render "IN" ds or_
      (by omega) (by omega) (by omega) (by omega) (by omega) (by omega)
      (by have := find_exact_header_index_ne hc hl (by decide); omega)
      (by have := find_exact_header_index_ne hc hi (by decide); omega)
      (by have := find_exact_header_index_ne hc hd (by decide); omega)
      (by have := find_exact_header_index_ne hc ho (by decide); omega)
      (by have := find_exact_header_index_ne hl hi (by decide); omega)
      (by have := find_exact_header_index_ne hl hd (by decide); omega)
      (by have := find_exact_header_index_ne hl ho (by decide); omega)
      (by have := find_exact_header_index_ne hi hd (by decide); omega)
      (by have := find_exact_header_index_ne hi ho (by decide); omega)
      (by have := find_exact_header_index_ne hd ho (by decide); omega)
    constructor
    · simp only [post_thread_data, hc, hl, hi, hd, ho]
    · simp only [post_thread_data, hc, hl, hi, hd, ho]
      exact hch

/-- Witness for C4 amended, on a one-row Material Log and the empty
Thread Data fixture (target rows 2, cells as written). -/
theorem claim_C4_witness :
    ((∀ r ∈ ["Material", "Yards", "IN/OUT", "O/R", "Date"],
        (Ws.mk [["Material", "Yards", "IN/OUT", "O/R", "Date"]]).rowValues1.contains r = true) ∧
      (update_material_log (Ws.mk [["Material", "Yards", "IN/OUT", "O/R", "Date"]])
          "A" "1" "Ordered" "d").1 =
        .ok (((Ws.mk [["Material", "Yards", "IN/OUT", "O/R", "Date"]]).colValues
          (headerIdx (Ws.mk [["Material", "Yards", "IN/OUT", "O/R", "Date"]]).rowValues1
            "Material" + 1)).length + 1)) ∧
    (find_exact_header_index threadDataWs0.rowValues1 "Color" = some 0 ∧
      (post_thread_data threadDataWs0 "Teal" "2" "Ordered" "d0").1 =
        some ((threadDataWs0.colValues (0 + 1)).length + 1)) := by
  refine ⟨⟨by decide, ?_⟩, by decide, ?_⟩
  · exact (claim_C4_append_target_row.1 (Ws.mk [["Material", "Yards", "IN/OUT", "O/R", "Date"]])
      "A" "1" "Ordered" "d" (by decide)).1
  · exact (claim_C4_append_target_row.2 threadDataWs0 "Teal" "2" "Ordered" "d0" 0 1 2 4 3
      (by decide) (by decide) (by decide) (by decide) (by decide)).1

/-- **C10.**  A thread movement whose quantity string does not parse as
a number still appends a ledger row without raising: the stored length
is `0` while colour, direction `IN`, date and status are written
normally. -/
theorem claim_C10_unparsable_thread_qty (ws : Ws) (color qty or_ ds : String)
    (ci li ii di oi : Nat)
    (hc : find_exact_header_index ws.rowValues1 "Color" = some ci)
    (hl : find_exact_header_index ws.rowValues1 "Length (ft)" = some li)
    (hi : find_exact_header_index ws.rowValues1 "IN/OUT" = some ii)
    (hd : find_exact_header_index ws.rowValues1 "Date" = some di)
    (ho : find_exact_header_index ws.rowValues1 "O/R" = some oi)
    (hq : pyFloat qty = none) :
    (post_thread_data ws color qty or_ ds).1 = some ((ws.colValues (ci + 1)).length + 1) ∧
    (post_thread_data ws color qty or_ ds).2.getCell
      ((ws.colValues (ci + 1)).length + 1) (li + 1) = "0" ∧
    (post_thread_data ws color qty or_ ds).2.getCell
      ((ws.colValues (ci + 1)).length + 1) (ci + 1) = color ∧
    (post_thread_data ws color qty or_ ds).2.getCell
      ((ws.colValues (ci + 1)).length + 1) (ii + 1) = "IN" ∧
    (post_thread_data ws color qty or_ ds).2.getCell
      ((ws.colValues (ci + 1)).length + 1) (di + 1) = ds ∧
    (post_thread_data ws color qty or_ ds).2.getCell
      ((ws.colValues (ci + 1)).length + 1) (oi + 1) = or_ := by
  have hzero : (threadNewQty qty).render = "0" := by
    unfold threadNewQty
    rw [hq]
    decide
  have hch := getCell_chain5 ws ((ws.colValues (ci + 1)).length + 1)
    (ci + 1) (li + 1) (ii + 1) (di + 1) (oi + 1)
    color (threadNewQty qty).render "IN" ds or_
    (by omega) (by omega) (by omega) (by omega) (by omega) (by omega)
    (by have := find_exact_header_index_ne hc hl (by decide); omega)
    (by have := find_exact_header_index_ne hc hi (by decide); omega)
    (by have := find_exact_header_index_ne hc hd (by decide); omega)
    (by have := find_exact_header_index_ne hc ho (by decide); omega)
    (by have := find_exact_header_index_ne hl hi (by decide); omega)
    (by have := find_exact_header_index_ne hl hd (by decide); omega)
    (by have := find_exact_header_index_ne hl ho (by decide); omega)
    (by have := find_exact_header_index_ne hi hd (by decide); omega)
    (by have := find_exact_header_index_ne hi ho (by decide); omega)
    (by have := find_exact_header_index_ne hd ho (by decide); omega)
  refine ⟨?_, ?_, ?_, ?_, ?_, ?_⟩
  · simp only [post_thread_data, hc, hl, hi, hd, ho]
  · simp only [post_thread_data, hc, hl, hi, hd, ho]
    rw [← hzero]
    exact hch.2.1
  · simp only [post_thread_data, hc, hl, hi, hd, ho]
    exact hch.1
  · simp only [post_thread_data, hc, hl, hi, hd, ho]
    exact hch.2.2.1
  · simp only [post_thread_data, hc, hl, hi, hd, ho]
    exact hch.2.2.2.1
  · simp only [post_thread_data, hc, hl, hi, hd, ho]
    exact hch.2.2.2.2

/-- Witness for C10: submitting the unparsable quantity `"x"` on the
Thread Data fixture stores length `0` at row 2. -/
theorem claim_C10_witness :
    pyFloat "x" = none ∧
    (post_thread_data threadDataWs0 "Teal" "x" "Ordered" "d0").1 =
      some ((threadDataWs0.colValues (0 + 1)).length + 1) ∧
    (post_thread_data threadDataWs0 "Teal" "x" "Ordered" "d0").2.getCell
      ((threadDataWs0.colValues (0 + 1)).length + 1) (1 + 1) = "0" := by
  have h := claim_C10_unparsable_thread_qty threadDataWs0 "Teal" "x" "Ordered" "d0" 0 1 2 4 3
    (by decide) (by decide) (by decide) (by decide) (by decide) (by decide)
  exact ⟨by decide, h.1, h.2.1⟩

/-- Reading the first of six writes into one row at distinct columns. -/
theorem getCell_chain6_first {ws : Ws} {r c1 c2 c3 c4 c5 c6 : Nat}
    {v1 v2 v3 v4 v5 v6 : String}
    (hr : 1 ≤ r) (h1 : 1 ≤ c1) (h2 : 1 ≤ c2) (h3 : 1 ≤ c3) (h4 : 1 ≤ c4) (h5 : 1 ≤ c5)
    (h6 : 1 ≤ c6) (d12 : c1 ≠ c2) (d13 : c1 ≠ c3) (d14 : c1 ≠ c4) (d15 : c1 ≠ c5)
    (d16 : c1 ≠ c6) :
    ((((((ws.updateCell r c1 v1).updateCell r c2 v2).updateCell r c3 v3).updateCell r c4
        v4).updateCell r c5 v5).updateCell r c6 v6).getCell r c1 = v1 := by
  rw [Ws.getCell_updateCell_ne _ _ hr h1 hr h6 (Or.inr d16),
    Ws.getCell_updateCell_ne _ _ hr h1 hr h5 (Or.inr d15),
    Ws.getCell_updateCell_ne _ _ hr h1 hr h4 (Or.inr d14),
    Ws.getCell_updateCell_ne _ _ hr h1 hr h3 (Or.inr d13),
    Ws.getCell_updateCell_ne _ _ hr h1 hr h2 (Or.inr d12),
    Ws.getCell_updateCell_self _ _ hr h1]

/-- Reading the first two of seven writes into one row at distinct
columns. -/
theorem getCell_chain7_first2 {ws : Ws} {r c1 c2 c3 c4 c5 c6 c7 : Nat}
    {v1 v2 v3 v4 v5 v6 v7 : String}
    (hr : 1 ≤ r) (h1 : 1 ≤ c1) (h2 : 1 ≤ c2) (h3 : 1 ≤ c3) (h4 : 1 ≤ c4) (h5 : 1 ≤ c5)
    (h6 : 1 ≤ c6) (h7 : 1 ≤ c7)
    (d12 : c1 ≠ c2) (d13 : c1 ≠ c3) (d14 : c1 ≠ c4) (d15 : c1 ≠ c5) (d16 : c1 ≠ c6)
    (d17 : c1 ≠ c7) (d23 : c2 ≠ c3) (d24 : c2 ≠ c4) (d25 : c2 ≠ c5) (d26 : c2 ≠ c6)
    (d27 : c2 ≠ c7) :
    (((((((ws.updateCell r c1 v1).updateCell r c2 v2).updateCell r c3 v3).updateCell r c4
        v4).updateCell r c5 v5).updateCell r c6 v6).updateCell r c7 v7).getCell r c1 = v1 ∧
    (((((((ws.updateCell r c1 v1).updateCell r c2 v2).updateCell r c3 v3).updateCell r c4
        v4).updateCell r c5 v5).updateCell r c6 v6).updateCell r c7 v7).getCell r c2 = v2 := by
  constructor
  · rw [Ws.getCell_updateCell_ne _ _ hr h1 hr h7 (Or.inr d17),
      Ws.getCell_updateCell_ne _ _ hr h1 hr h6 (Or.inr d16),
      Ws.getCell_updateCell_ne _ _ hr h1 hr h5 (Or.inr d15),
      Ws.getCell_updateCell_ne _ _ hr h1 hr h4 (Or.inr d14),
      Ws.getCell_updateCell_ne _ _ hr h1 hr h3 (Or.inr d13),
      Ws.getCell_updateCell_ne _ _ hr h1 hr h2 (Or.inr d12),
      Ws.getCell_updateCell_self _ _ hr h1]
  · rw [Ws.getCell_updateCell_ne _ _ hr h2 hr h7 (Or.inr d27),
      Ws.getCell_updateCell_ne _ _ hr h2 hr h6 (Or.inr d26),
      Ws.getCell_updateCell_ne _ _ hr h2 hr h5 (Or.inr d25),
      Ws.getCell_updateCell_ne _ _ hr h2 hr h4 (Or.inr d24),
      Ws.getCell_updateCell_ne _ _ hr h2 hr h3 (Or.inr d23),
      Ws.getCell_updateCell_self _ _ hr h2]

/-- **C9.**  During material onboarding the submitted name itself
routes record creation: a name containing `"fur"` (case-insensitively)
is created through `create_new_fur_color_inventory` — whose row lands
in the `Fur Color` column under the dotted header scheme — and only the
fur-colours cache is invalidated; any other name is created through
`create_new_material_inventory` — whose row lands in the `Materials`
column, with the `Unit` cell written — and only the materials cache is
invalidated. -/
theorem claim_C9_fur_routing :
    (∀ (st : AppState) (m q s ds : String) (dlg : MaterialDialog),
      st.invWs.rowValues1.contains "Materials" = true →
      st.invWs.rowValues1.contains "Fur Color" = true →
      materialKnown
        ((st.invWs.colValues (headerIdx st.invWs.rowValues1 "Materials" + 1)).drop 1)
        ((st.invWs.colValues (headerIdx st.invWs.rowValues1 "Fur Color" + 1)).drop 1)
        m = false →
      (dlg.min_inv == "") = false → (dlg.reorder == "") = false →
      (dlg.price == "") = false → (dlg.unit == "") = false →
      ((nameHasFur m = true →
          (process_material_entry st m q s true dlg ds).2.invWs =
            (create_new_fur_color_inventory st.invWs m dlg.min_inv dlg.reorder dlg.price).2 ∧
          (process_material_entry st m q s true dlg ds).2.furColorsCache = none ∧
          (process_material_entry st m q s true dlg ds).2.materialsCache =
            st.materialsCache) ∧
        (nameHasFur m = false →
          (process_material_entry st m q s true dlg ds).2.invWs =
            (create_new_material_inventory st.invWs m dlg.unit dlg.min_inv dlg.reorder
              dlg.price).2 ∧
          (process_material_entry st m q s true dlg ds).2.materialsCache = none ∧
          (process_material_entry st m q s true dlg ds).2.furColorsCache =
            st.furColorsCache))) ∧
    (∀ (ws : Ws) (f mi re pr : String),
      (∀ r ∈ ["Fur Color", "Min Inv.", "Reorder.", "On Order.", "Inventory.", "Value."],
          ws.rowValues1.contains r = true) →
      (create_new_fur_color_inventory ws f mi re pr).2.getCell
        ((ws.colValues (headerIdx ws.rowValues1 "Fur Color" + 1)).length + 1)
        (headerIdx ws.rowValues1 "Fur Color" + 1) = f) ∧
    (∀ (ws : Ws) (m u mi re pr : String),
      (∀ r ∈ ["Materials", "Unit", "Min. Inv.", "Reorder", "On Order", "Inventory", "Value"],
          ws.rowValues1.contains r = true) →
      (create_new_material_inventory ws m u mi re pr).2.getCell
        ((ws.colValues (headerIdx ws.rowValues1 "Materials" + 1)).length + 1)
        (headerIdx ws.rowValues1 "Materials" + 1) = m ∧
      (create_new_material_inventory ws m u mi re pr).2.getCell
        ((ws.colValues (headerIdx ws.rowValues1 "Materials" + 1)).length + 1)
        (headerIdx ws.rowValues1 "Unit" + 1) = u) := by
  refine ⟨?_, ?_, ?_⟩
  · intro st m q s ds dlg h1 h2 hkn he1 he2 he3 he4
    simp only [List.drop_one] at hkn
    constructor
    · intro hfur
      refine ⟨?_, ?_, ?_⟩ <;>
        simp [process_material_entry, mem_of_contains h1, mem_of_contains h2, hkn, he1, he2,
          he3, he4, hfur, materialLogAppend]
    · intro hfur
      refine ⟨?_, ?_, ?_⟩ <;>
        simp [process_material_entry, mem_of_contains h1, mem_of_contains h2, hkn, he1, he2,
          he3, he4, hfur, materialLogAppend]
  · intro ws f mi re pr h
    have hF := h "Fur Color" (by simp)
    have hM := h "Min Inv." (by simp)
    have hR := h "Reorder." (by simp)
    have hO := h "On Order." (by simp)
    have hI := h "Inventory." (by simp)
    have hV := h "Value." (by simp)
    have hfind : (["Fur Color", "Min Inv.", "Reorder.", "On Order.", "Inventory.",
        "Value."].find? (fun r => !ws.rowValues1.contains r)) = none := by
      rw [List.find?_eq_none]
      intro x hx
      simp only [List.mem_cons, List.not_mem_nil, or_false] at hx
      rcases hx with rfl | rfl | rfl | rfl | rfl | rfl
      · exact not_bang_of_contains hF
      · exact not_bang_of_contains hM
      · exact not_bang_of_contains hR
      · exact not_bang_of_contains hO
      · exact not_bang_of_contains hI
      · exact not_bang_of_contains hV
    simp only [create_new_fur_color_inventory]
    rw [hfind]
    exact getCell_chain6_first (by omega) (by omega) (by omega) (by omega) (by omega)
      (by omega) (by omega)
      (by have := headerIdx_ne ws.rowValues1 hF hM (by decide); omega)
      (by have := headerIdx_ne ws.rowValues1 hF hR (by decide); omega)
      (by have := headerIdx_ne ws.rowValues1 hF hO (by decide); omega)
      (by have := headerIdx_ne ws.rowValues1 hF hI (by decide); omega)
      (by have := headerIdx_ne ws.rowValues1 hF hV (by decide); omega)
  · intro ws m u mi re pr h
    have hMs := h "Materials" (by simp)
    have hU := h "Unit" (by simp)
    have hMi := h "Min. Inv." (by simp)
    have hRe := h "Reorder" (by simp)
    have hOn := h "On Order" (by simp)
    have hIn := h "Inventory" (by simp)
    have hVa := h "Value" (by simp)
    have hfind : (["Materials", "Unit", "Min. Inv.", "Reorder", "On Order", "Inventory",
        "Value"].find? (fun r => !ws.rowValues1.contains r)) = none := by
      rw [List.find?_eq_none]
      intro x hx
      simp only [List.mem_cons, List.not_mem_nil, or_false] at hx
      rcases hx with rfl | rfl | rfl | rfl | rfl | rfl | rfl
      · exact not_bang_of_contains hMs
      · exact not_bang_of_contains hU
      · exact not_bang_of_contains hMi
      · exact not_bang_of_contains hRe
      · exact not_bang_of_contains hOn
      · exact not_bang_of_contains hIn
      · exact not_bang_of_contains hVa
    simp only [create_new_material_inventory]
    rw [hfind]
    exact getCell_chain7_first2 (by omega) (by omega) (by omega) (by omega) (by omega)
      (by omega) (by omega) (by omega)
      (by have := headerIdx_ne ws.rowValues1 hMs hU (by decide); omega)
      (by have := headerIdx_ne ws.rowValues1 hMs hMi (by decide); omega)
      (by have := headerIdx_ne ws.rowValues1 hMs hRe (by decide); omega)
      (by have := headerIdx_ne ws.rowValues1 hMs hOn (by decide); omega)
      (by have := headerIdx_ne ws.rowValues1 hMs hIn (by decide); omega)
      (by have := headerIdx_ne ws.rowValues1 hMs hVa (by decide); omega)
      (by have := headerIdx_ne ws.rowValues1 hU hMi (by decide); omega)
      (by have := headerIdx_ne ws.rowValues1 hU hRe (by decide); omega)
      (by have := headerIdx_ne ws.rowValues1 hU hOn (by decide); omega)
      (by have := headerIdx_ne ws.rowValues1 hU hIn (by decide); omega)
      (by have := headerIdx_ne ws.rowValues1 hU hVa (by decide); omega)

/-- A Material Inventory header row holding both the Materials and the
Fur Color header schemes, with no entries yet. -/
def matInvWs0 : Ws :=
  ⟨[["Materials", "Unit", "Min. Inv.", "Reorder", "On Order", "Inventory", "Value",
     "Fur Color", "Min Inv.", "Reorder.", "On Order.", "Inventory.", "Value."]]⟩

/-- Application state over `matInvWs0` with an empty Material Log. -/
def matAppSt0 : AppState :=
  { invWs := matInvWs0, logWs := ⟨[["Material", "Yards", "IN/OUT", "O/R", "Date"]]⟩,
    threadWs := ⟨[]⟩, dirWs := ⟨[]⟩, materialsCache := none, furColorsCache := some [],
    threadsCache := none, companiesCache := none, productsCache := none }

/-- Witness for C9: onboarding `"SilverFur"` routes to the fur scheme,
invalidates only the fur cache, and writes the name under `Fur
Color`. -/
theorem claim_C9_witness :
    nameHasFur "SilverFur" = true ∧
    (process_material_entry matAppSt0 "SilverFur" "2" "Ordered" true
      ⟨"1", "1", "5", "yard"⟩ "d").2.furColorsCache = none ∧
    (process_material_entry matAppSt0 "SilverFur" "2" "Ordered" true
      ⟨"1", "1", "5", "yard"⟩ "d").2.materialsCache = matAppSt0.materialsCache ∧
    (create_new_fur_color_inventory matInvWs0 "SilverFur" "1" "1" "5").2.getCell
      ((matInvWs0.colValues (headerIdx matInvWs0.rowValues1 "Fur Color" + 1)).length + 1)
      (headerIdx matInvWs0.rowValues1 "Fur Color" + 1) = "SilverFur" := by
  have hmain := (claim_C9_fur_routing.1 matAppSt0 "SilverFur" "2" "Ordered" "d"
    ⟨"1", "1", "5", "yard"⟩ (by decide) (by decide) (by decide) (by decide) (by decide)
    (by decide) (by decide)).1 (by decide)
  exact ⟨by decide, hmain.2.1, hmain.2.2,
    claim_C9_fur_routing.2.1 matInvWs0 "SilverFur" "1" "1" "5" (by decide)⟩

/-! ### Specification-level pending views (for C5) -/

/-- The spec's reading of the Material half of `loadPending`: data rows
(sheet rows numbered from 2 in store order) whose status cell, trimmed
and lowercased, equals `"ordered"`, projected to pending orders. -/
def pendingMaterialView (ws : Ws) (o d m y : Nat) : List PendingOrder :=
  ((List.enumFrom 2 (ws.rows.drop 1)).filter
      (fun p => decide (o < p.2.length) &&
        (pyLower (pyStrip (p.2.getD o "")) == "ordered"))).map
    (fun p =>
      { row := p.1
        date := if d < p.2.length then p.2.getD d "" else ""
        kind := "Material"
        name := if m < p.2.length then p.2.getD m "" else ""
        quantity := if y < p.2.length then p.2.getD y "" else "" })

/-- The spec's reading of the Thread half of `loadPending`: like the
material half, with the stored length converted to a cones display
(raw cell text when unparsable). -/
def pendingThreadView (ws : Ws) (o d c li : Nat) : List PendingOrder :=
  ((List.enumFrom 2 (ws.rows.drop 1)).filter
      (fun p => decide (o < p.2.length) &&
        (pyLower (pyStrip (p.2.getD o "")) == "ordered"))).map
    (fun p =>
      { row := p.1
        date := if d < p.2.length then p.2.getD d "" else ""
        kind := "Thread"
        name := if c < p.2.length then p.2.getD c "" else ""
        quantity :=
          match pyFloat (p.2.getD li "") with
          | some v => conesDisplay v
          | none => p.2.getD li "" })

theorem scanMaterialRows_eq_filter (o d m y i : Nat) (data : List Row) :
    scanMaterialRows (some o) (some d) (some m) (some y) i data =
      ((List.enumFrom i data).filter (fun p => matchesOrdered (some o) p.2)).map
        (fun p =>
          { row := p.1
            date := if d < p.2.length then p.2.getD d "" else ""
            kind := "Material"
            name := if m < p.2.length then p.2.getD m "" else ""
            quantity := if y < p.2.length then p.2.getD y "" else "" }) := by
  induction data generalizing i with
  | nil => rfl
  | cons row rest ih =>
    simp only [scanMaterialRows, List.enumFrom_cons, List.filter_cons]
    by_cases hm : matchesOrdered (some o) row = true
    · simp [hm, ih]
    · simp [hm, ih]

theorem scanThreadRows_eq_filter (o d c li i : Nat) (data : List Row)
    (hrow : ∀ p ∈ List.enumFrom i data,
      matchesOrdered (some o) p.2 = true → li < p.2.length) :
    scanThreadRows (some o) (some d) (some c) (some li) i data =
      ((List.enumFrom i data).filter (fun p => matchesOrdered (some o) p.2)).map
        (fun p =>
          { row := p.1
            date := if d < p.2.length then p.2.getD d "" else ""
            kind := "Thread"
            name := if c < p.2.length then p.2.getD c "" else ""
            quantity :=
              match pyFloat (p.2.getD li "") with
              | some v => conesDisplay v
              | none => p.2.getD li "" }) := by
  induction data generalizing i with
  | nil => rfl
  | cons row rest ih =>
    have hrest : ∀ p ∈ List.enumFrom (i + 1) rest,
        matchesOrdered (some o) p.2 = true → li < p.2.length := by
      intro p hp
      exact hrow p (by simp [List.enumFrom_cons, hp])
    simp only [scanThreadRows, List.enumFrom_cons, List.filter_cons]
    by_cases hm : matchesOrdered (some o) row = true
    · have hlen : li < row.length := hrow (i, row) (by simp [List.enumFrom_cons]) hm
      simp [hm, hlen, ih _ hrest]
    · simp [hm, ih _ hrest]

theorem le_fst_of_mem_enumFrom {α : Type} {p : Nat × α} {i : Nat} {l : List α}
    (h : p ∈ List.enumFrom i l) : i ≤ p.1 := by
  induction l generalizing i with
  | nil => simp at h
  | cons a l ih =>
    rw [List.enumFrom_cons] at h
    rcases List.mem_cons.mp h with rfl | h
    · exact Nat.le_refl i
    · have := ih h
      omega

theorem pairwise_fst_lt_enumFrom {α : Type} (i : Nat) (l : List α) :
    List.Pairwise (fun p q : Nat × α => p.1 < q.1) (List.enumFrom i l) := by
  induction l generalizing i with
  | nil => exact List.Pairwise.nil
  | cons a l ih =>
    rw [List.enumFrom_cons]
    refine List.Pairwise.cons ?_ (ih (i + 1))
    intro q hq
    have := le_fst_of_mem_enumFrom hq
    show i < q.1
    omega

theorem pendingMaterialView_rows_sorted (ws : Ws) (o d m y : Nat) :
    List.Pairwise (· < ·) ((pendingMaterialView ws o d m y).map (fun ord => ord.row)) := by
  unfold pendingMaterialView
  rw [List.map_map, List.pairwise_map]
  exact List.Pairwise.sublist (List.filter_sublist _) (pairwise_fst_lt_enumFrom 2 _)

theorem pendingThreadView_rows_sorted (ws : Ws) (o d c li : Nat) :
    List.Pairwise (· < ·) ((pendingThreadView ws o d c li).map (fun ord => ord.row)) := by
  unfold pendingThreadView
  rw [List.map_map, List.pairwise_map]
  exact List.Pairwise.sublist (List.filter_sublist _) (pairwise_fst_lt_enumFrom 2 _)

theorem scanMaterialTable_eq_view (ws : Ws) (o d m y : Nat)
    (hlen : 2 ≤ ws.rows.length)
    (ho : find_exact_header_index (ws.rows.getD 0 []) "O/R" = some o)
    (hd : find_exact_header_index (ws.rows.getD 0 []) "Date" = some d)
    (hm : find_exact_header_index (ws.rows.getD 0 []) "Material" = some m)
    (hy : find_exact_header_index (ws.rows.getD 0 []) "Yards" = some y) :
    scanMaterialTable (some ws) = pendingMaterialView ws o d m y := by
  simp only [scanMaterialTable, Ws.getAllValues]
  rw [if_pos hlen, ho, hd, hm, hy, scanMaterialRows_eq_filter]
  rfl

theorem scanThreadTable_eq_view (ws : Ws) (o d c li : Nat)
    (hlen : 2 ≤ ws.rows.length)
    (ho : find_exact_header_index (ws.rows.getD 0 []) "O/R" = some o)
    (hd : find_exact_header_index (ws.rows.getD 0 []) "Date" = some d)
    (hc : find_exact_header_index (ws.rows.getD 0 []) "Color" = some c)
    (hl : find_exact_header_index (ws.rows.getD 0 []) "Length (ft)" = some li)
    (hrow : ∀ p ∈ List.enumFrom 2 (ws.rows.drop 1),
      matchesOrdered (some o) p.2 = true → li < p.2.length) :
    scanThreadTable (some ws) = pendingThreadView ws o d c li := by
  simp only [scanThreadTable, Ws.getAllValues]
  rw [if_pos hlen, ho, hd, hc, hl, scanThreadRows_eq_filter _ _ _ _ _ _ hrow]
  rfl

/-- **C5.**  `loadPending` returns exactly the Material Log and Thread
Data rows whose status cell — trimmed, case-insensitively — equals
`"ordered"`; the merged list is material rows followed by thread rows,
each half in store row order (strictly increasing sheet rows); and a
table that cannot be scanned contributes zero rows instead of aborting
the merge. -/
theorem claim_C5_load_pending (wsM wsT : Ws) (o d m y o2 d2 c2 l2 : Nat)
    (hMlen : 2 ≤ wsM.rows.length)
    (hMo : find_exact_header_index (wsM.rows.getD 0 []) "O/R" = some o)
    (hMd : find_exact_header_index (wsM.rows.getD 0 []) "Date" = some d)
    (hMm : find_exact_header_index (wsM.rows.getD 0 []) "Material" = some m)
    (hMy : find_exact_header_index (wsM.rows.getD 0 []) "Yards" = some y)
    (hTlen : 2 ≤ wsT.rows.length)
    (hTo : find_exact_header_index (wsT.rows.getD 0 []) "O/R" = some o2)
    (hTd : find_exact_header_index (wsT.rows.getD 0 []) "Date" = some d2)
    (hTc : find_exact_header_index (wsT.rows.getD 0 []) "Color" = some c2)
    (hTl : find_exact_header_index (wsT.rows.getD 0 []) "Length (ft)" = some l2)
    (hTrow : ∀ p ∈ List.enumFrom 2 (wsT.rows.drop 1),
      matchesOrdered (some o2) p.2 = true → l2 < p.2.length) :
    load_orders_from_sheets (some wsM) (some wsT) =
      pendingMaterialView wsM o d m y ++ pendingThreadView wsT o2 d2 c2 l2 ∧
    List.Pairwise (· < ·) ((pendingMaterialView wsM o d m y).map (fun ord => ord.row)) ∧
    List.Pairwise (· < ·) ((pendingThreadView wsT o2 d2 c2 l2).map (fun ord => ord.row)) ∧
    load_orders_from_sheets none (some wsT) = pendingThreadView wsT o2 d2 c2 l2 ∧
    load_orders_from_sheets (some wsM) none = pendingMaterialView wsM o d m y ∧
    load_orders_from_sheets none none = ([] : List PendingOrder) := by
  have hMat := scanMaterialTable_eq_view wsM o d m y hMlen hMo hMd hMm hMy
  have hThr := scanThreadTable_eq_view wsT o2 d2 c2 l2 hTlen hTo hTd hTc hTl hTrow
  refine ⟨?_, pendingMaterialView_rows_sorted _ _ _ _ _,
    pendingThreadView_rows_sorted _ _ _ _ _, ?_, ?_, rfl⟩
  · show scanMaterialTable (some wsM) ++ scanThreadTable (some wsT) = _
    rw [hMat, hThr]
  · show scanMaterialTable none ++ scanThreadTable (some wsT) = _
    rw [hThr]
    rfl
  · show scanMaterialTable (some wsM) ++ scanThreadTable none = _
    rw [hMat]
    simp [scanThreadTable]

/-- Witness for C5 on two-row fixtures: one ordered and one received
row in each table. -/
theorem claim_C5_witness :
    load_orders_from_sheets
        (some (Ws.mk [["Material", "Yards", "IN/OUT", "O/R", "Date"],
          ["A", "1", "IN", "Ordered", "d1"], ["B", "2", "IN", "Received", "d2"]]))
        (some threadDataWs1) =
      pendingMaterialView (Ws.mk [["Material", "Yards", "IN/OUT", "O/R", "Date"],
          ["A", "1", "IN", "Ordered", "d1"], ["B", "2", "IN", "Received", "d2"]]) 3 4 0 1 ++
        pendingThreadView threadDataWs1 3 4 0 1 := by
  exact (claim_C5_load_pending
    (Ws.mk [["Material", "Yards", "IN/OUT", "O/R", "Date"],
      ["A", "1", "IN", "Ordered", "d1"], ["B", "2", "IN", "Received", "d2"]])
    threadDataWs1 3 4 0 1 3 4 0 1
    (by decide) (by decide) (by decide) (by decide) (by decide)
    (by decide) (by decide) (by decide) (by decide) (by decide) (by decide)).1

/-! ### Receive lemmas (for C6) -/

theorem markReceived_rowValues1 (ws : Ws) {r : Nat} (ts : String) (hr : 2 ≤ r) :
    (markReceived ws r ts).rowValues1 = ws.rowValues1 := by
  simp only [markReceived]
  split
  · rw [Ws.rowValues1_updateCell _ _ hr, Ws.rowValues1_updateCell _ _ hr]
  · rw [Ws.rowValues1_updateCell _ _ hr]

theorem markReceived_marks (ws : Ws) {r : Nat} (ts : String) (hr : 1 ≤ r)
    (hOR : ws.rowValues1.contains "O/R" = true)
    (hDate : ws.rowValues1.contains "Date" = true) :
    (markReceived ws r ts).getCell r (headerIdx ws.rowValues1 "O/R" + 1) = "Received" ∧
    (markReceived ws r ts).getCell r (headerIdx ws.rowValues1 "Date" + 1) = ts := by
  have hne : headerIdx ws.rowValues1 "O/R" ≠ headerIdx ws.rowValues1 "Date" :=
    headerIdx_ne _ hOR hDate (by decide)
  simp only [markReceived, hDate, if_true]
  constructor
  · rw [Ws.getCell_updateCell_ne _ _ hr (by omega) hr (by omega) (Or.inr (by omega)),
      Ws.getCell_updateCell_self _ _ hr (by omega)]
  · rw [Ws.getCell_updateCell_self _ _ hr (by omega)]

theorem markReceived_keeps (ws : Ws) {r r' : Nat} (ts : String)
    (hr : 1 ≤ r) (hr' : 1 ≤ r')
    (hOR : ws.rowValues1.contains "O/R" = true)
    (hDate : ws.rowValues1.contains "Date" = true)
    (h1 : ws.getCell r (headerIdx ws.rowValues1 "O/R" + 1) = "Received")
    (h2 : ws.getCell r (headerIdx ws.rowValues1 "Date" + 1) = ts) :
    (markReceived ws r' ts).getCell r (headerIdx ws.rowValues1 "O/R" + 1) = "Received" ∧
    (markReceived ws r' ts).getCell r (headerIdx ws.rowValues1 "Date" + 1) = ts := by
  rcases eq_or_ne r r' with rfl | hne
  · exact markReceived_marks ws ts hr hOR hDate
  · simp only [markReceived, hDate, if_true]
    constructor
    · rw [Ws.getCell_updateCell_ne _ _ hr (by omega) hr' (by omega) (Or.inl hne),
        Ws.getCell_updateCell_ne _ _ hr (by omega) hr' (by omega) (Or.inl hne)]
      exact h1
    · rw [Ws.getCell_updateCell_ne _ _ hr (by omega) hr' (by omega) (Or.inl hne),
        Ws.getCell_updateCell_ne _ _ hr (by omega) hr' (by omega) (Or.inl hne)]
      exact h2

theorem receive_orders_rowValues1 (ts : String) (items : List (String × Nat)) :
    ∀ wsM wsT : Ws, (∀ p ∈ items, 2 ≤ p.2) →
    (receive_orders wsM wsT ts items).1.rowValues1 = wsM.rowValues1 ∧
    (receive_orders wsM wsT ts items).2.1.rowValues1 = wsT.rowValues1 := by
  induction items with
  | nil => exact fun wsM wsT _ => ⟨rfl, rfl⟩
  | cons q rest ih =>
    intro wsM wsT hrows
    obtain ⟨k, r'⟩ := q
    have hr2 : 2 ≤ r' := hrows (k, r') (by simp)
    have hrest : ∀ z ∈ rest, 2 ≤ z.2 := fun z hz => hrows z (by simp [hz])
    simp only [receive_orders]
    by_cases hk : k = "Material"
    · subst hk
      rw [if_pos (by decide)]
      by_cases hcon : wsM.rowValues1.contains "O/R" = true
      · rw [if_pos hcon]
        have := ih (markReceived wsM r' ts) wsT hrest
        rw [markReceived_rowValues1 wsM ts hr2] at this
        exact this
      · rw [if_neg hcon]
        exact ih wsM wsT hrest
    · rw [if_neg (by simp [hk])]
      by_cases hk2 : k = "Thread"
      · subst hk2
        rw [if_pos (by decide)]
        by_cases hcon : wsT.rowValues1.contains "O/R" = true
        · rw [if_pos hcon]
          have := ih wsM (markReceived wsT r' ts) hrest
          rw [markReceived_rowValues1 wsT ts hr2] at this
          exact this
        · rw [if_neg hcon]
          exact ih wsM wsT hrest
      · rw [if_neg (by simp [hk2])]
        exact ih wsM wsT hrest

theorem receive_orders_keeps_M (ts : String) (items : List (String × Nat)) {r : Nat}
    (hr : 2 ≤ r) :
    ∀ wsM wsT : Ws, (∀ p ∈ items, 2 ≤ p.2) →
    wsM.rowValues1.contains "O/R" = true → wsM.rowValues1.contains "Date" = true →
    wsM.getCell r (headerIdx wsM.rowValues1 "O/R" + 1) = "Received" →
    wsM.getCell r (headerIdx wsM.rowValues1 "Date" + 1) = ts →
    (receive_orders wsM wsT ts items).1.getCell r
      (headerIdx wsM.rowValues1 "O/R" + 1) = "Received" ∧
    (receive_orders wsM wsT ts items).1.getCell r
      (headerIdx wsM.rowValues1 "Date" + 1) = ts := by
  induction items with
  | nil => exact fun wsM wsT _ _ _ h1 h2 => ⟨h1, h2⟩
  | cons q rest ih =>
    intro wsM wsT hrows hMO hMD h1 h2
    obtain ⟨k, r'⟩ := q
    have hr2 : 2 ≤ r' := hrows (k, r') (by simp)
    have hrest : ∀ z ∈ rest, 2 ≤ z.2 := fun z hz => hrows z (by simp [hz])
    simp only [receive_orders]
    by_cases hk : k = "Material"
    · subst hk
      rw [if_pos (by decide), if_pos hMO]
      have hRV := markReceived_rowValues1 wsM ts hr2
      have hkeep := @markReceived_keeps wsM r r' ts (by omega) (by omega) hMO hMD h1 h2
      have := ih (markReceived wsM r' ts) wsT hrest
        (by rw [hRV]; exact hMO) (by rw [hRV]; exact hMD)
        (by rw [hRV]; exact hkeep.1) (by rw [hRV]; exact hkeep.2)
      rw [hRV] at this
      exact this
    · rw [if_neg (by simp [hk])]
      by_cases hk2 : k = "Thread"
      · subst hk2
        rw [if_pos (by decide)]
        by_cases hcon : wsT.rowValues1.contains "O/R" = true
        · rw [if_pos hcon]
          exact ih wsM (markReceived wsT r' ts) hrest hMO hMD h1 h2
        · rw [if_neg hcon]
          exact ih wsM wsT hrest hMO hMD h1 h2
      · rw [if_neg (by simp [hk2])]
        exact ih wsM wsT hrest hMO hMD h1 h2

theorem receive_orders_keeps_T (ts : String) (items : List (String × Nat)) {r : Nat}
    (hr : 2 ≤ r) :
    ∀ wsM wsT : Ws, (∀ p ∈ items, 2 ≤ p.2) →
    wsT.rowValues1.contains "O/R" = true → wsT.rowValues1.contains "Date" = true →
    wsT.getCell r (headerIdx wsT.rowValues1 "O/R" + 1) = "Received" →
    wsT.getCell r (headerIdx wsT.rowValues1 "Date" + 1) = ts →
    (receive_orders wsM wsT ts items).2.1.getCell r
      (headerIdx wsT.rowValues1 "O/R" + 1) = "Received" ∧
    (receive_orders wsM wsT ts items).2.1.getCell r
      (headerIdx wsT.rowValues1 "Date" + 1) = ts := by
  induction items with
  | nil => exact fun wsM wsT _ _ _ h1 h2 => ⟨h1, h2⟩
  | cons q rest ih =>
    intro wsM wsT hrows hTO hTD h1 h2
    obtain ⟨k, r'⟩ := q
    have hr2 : 2 ≤ r' := hrows (k, r') (by simp)
    have hrest : ∀ z ∈ rest, 2 ≤ z.2 := fun z hz => hrows z (by simp [hz])
    simp only [receive_orders]
    by_cases hk : k = "Material"
    · subst hk
      rw [if_pos (by decide)]
      by_cases hcon : wsM.rowValues1.contains "O/R" = true
      · rw [if_pos hcon]
        exact ih (markReceived wsM r' ts) wsT hrest hTO hTD h1 h2
      · rw [if_neg hcon]
        exact ih wsM wsT hrest hTO hTD h1 h2
    · rw [if_neg (by simp [hk])]
      by_cases hk2 : k = "Thread"
      · subst hk2
        rw [if_pos (by decide), if_pos hTO]
        have hRV := markReceived_rowValues1 wsT ts hr2
        have hkeep := @markReceived_keeps wsT r r' ts (by omega) (by omega) hTO hTD h1 h2
        have := ih wsM (markReceived wsT r' ts) hrest
          (by rw [hRV]; exact hTO) (by rw [hRV]; exact hTD)
          (by rw [hRV]; exact hkeep.1) (by rw [hRV]; exact hkeep.2)
        rw [hRV] at this
        exact this
      · rw [if_neg (by simp [hk2])]
        exact ih wsM wsT hrest hTO hTD h1 h2

theorem receive_orders_material_marks (ts : String) (items : List (String × Nat)) :
    ∀ wsM wsT : Ws, (∀ p ∈ items, 2 ≤ p.2) →
    wsM.rowValues1.contains "O/R" = true → wsM.rowValues1.contains "Date" = true →
    ∀ p ∈ items, p.1 = "Material" →
      (receive_orders wsM wsT ts items).1.getCell p.2
        (headerIdx wsM.rowValues1 "O/R" + 1) = "Received" ∧
      (receive_orders wsM wsT ts items).1.getCell p.2
        (headerIdx wsM.rowValues1 "Date" + 1) = ts := by
  induction items with
  | nil =>
    intro wsM wsT _ _ _ p hp
    simp at hp
  | cons q rest ih =>
    intro wsM wsT hrows hMO hMD p hp hkind
    obtain ⟨k, r'⟩ := q
    have hr2 : 2 ≤ r' := hrows (k, r') (by simp)
    have hrest : ∀ z ∈ rest, 2 ≤ z.2 := fun z hz => hrows z (by simp [hz])
    rcases List.mem_cons.mp hp with rfl | hp'
    · have hk : k = "Material" := hkind
      subst hk
      simp only [receive_orders]
      rw [if_pos (by decide), if_pos hMO]
      have hRV := markReceived_rowValues1 wsM ts hr2
      have hmk := markReceived_marks (r := r') wsM ts (by omega) hMO hMD
      have hres := receive_orders_keeps_M ts rest (r := r') hr2 (markReceived wsM r' ts) wsT
        hrest (by rw [hRV]; exact hMO) (by rw [hRV]; exact hMD)
        (by rw [hRV]; exact hmk.1) (by rw [hRV]; exact hmk.2)
      rw [hRV] at hres
      exact hres
    · simp only [receive_orders]
      by_cases hk : k = "Material"
      · subst hk
        rw [if_pos (by decide)]
        by_cases hcon : wsM.rowValues1.contains "O/R" = true
        · rw [if_pos hcon]
          have hRV := markReceived_rowValues1 wsM ts hr2
          have := ih (markReceived wsM r' ts) wsT hrest
            (by rw [hRV]; exact hMO) (by rw [hRV]; exact hMD) p hp' hkind
          rw [hRV] at this
          exact this
        · rw [if_neg hcon]
          exact ih wsM wsT hrest hMO hMD p hp' hkind
      · rw [if_neg (by simp [hk])]
        by_cases hk2 : k = "Thread"
        · subst hk2
          rw [if_pos (by decide)]
          by_cases hcon : wsT.rowValues1.contains "O/R" = true
          · rw [if_pos hcon]
            exact ih wsM (markReceived wsT r' ts) hrest hMO hMD p hp' hkind
          · rw [if_neg hcon]
            exact ih wsM wsT hrest hMO hMD p hp' hkind
        · rw [if_neg (by simp [hk2])]
          exact ih wsM wsT hrest hMO hMD p hp' hkind

theorem receive_orders_thread_marks (ts : String) (items : List (String × Nat)) :
    ∀ wsM wsT : Ws, (∀ p ∈ items, 2 ≤ p.2) →
    wsT.rowValues1.contains "O/R" = true → wsT.rowValues1.contains "Date" = true →
    ∀ p ∈ items, p.1 = "Thread" →
      (receive_orders wsM wsT ts items).2.1.getCell p.2
        (headerIdx wsT.rowValues1 "O/R" + 1) = "Received" ∧
      (receive_orders wsM wsT ts items).2.1.getCell p.2
        (headerIdx wsT.rowValues1 "Date" + 1) = ts := by
  induction items with
  | nil =>
    intro wsM wsT _ _ _ p hp
    simp at hp
  | cons q rest ih =>
    intro wsM wsT hrows hTO hTD p hp hkind
    obtain ⟨k, r'⟩ := q
    have hr2 : 2 ≤ r' := hrows (k, r') (by simp)
    have hrest : ∀ z ∈ rest, 2 ≤ z.2 := fun z hz => hrows z (by simp [hz])
    rcases List.mem_cons.mp hp with rfl | hp'
    · have hk : k = "Thread" := hkind
      subst hk
      simp only [receive_orders]
      rw [if_neg (by decide), if_pos (by decide), if_pos hTO]
      have hRV := markReceived_rowValues1 wsT ts hr2
      have hmk := markReceived_marks (r := r') wsT ts (by omega) hTO hTD
      have hres := receive_orders_keeps_T ts rest (r := r') hr2 wsM (markReceived wsT r' ts)
        hrest (by rw [hRV]; exact hTO) (by rw [hRV]; exact hTD)
        (by rw [hRV]; exact hmk.1) (by rw [hRV]; exact hmk.2)
      rw [hRV] at hres
      exact hres
    · simp only [receive_orders]
      by_cases hk : k = "Material"
      · subst hk
        rw [if_pos (by decide)]
        by_cases hcon : wsM.rowValues1.contains "O/R" = true
        · rw [if_pos hcon]
          exact ih (markReceived wsM r' ts) wsT hrest hTO hTD p hp' hkind
        · rw [if_neg hcon]
          exact ih wsM wsT hrest hTO hTD p hp' hkind
      · rw [if_neg (by simp [hk])]
        by_cases hk2 : k = "Thread"
        · subst hk2
          rw [if_pos (by decide)]
          by_cases hcon : wsT.rowValues1.contains "O/R" = true
          · rw [if_pos hcon]
            have hRV := markReceived_rowValues1 wsT ts hr2
            have := ih wsM (markReceived wsT r' ts) hrest
              (by rw [hRV]; exact hTO) (by rw [hRV]; exact hTD) p hp' hkind
            rw [hRV] at this
            exact this
          · rw [if_neg hcon]
            exact ih wsM wsT hrest hTO hTD p hp' hkind
        · rw [if_neg (by simp [hk2])]
          exact ih wsM wsT hrest hTO hTD p hp' hkind

theorem receive_orders_failed (ts : String) (items : List (String × Nat)) :
    ∀ wsM wsT : Ws, (∀ p ∈ items, 2 ≤ p.2) →
    (receive_orders wsM wsT ts items).2.2 =
      items.filter (fun p => (p.1 == "Material" && !wsM.rowValues1.contains "O/R")
        || (p.1 == "Thread" && !wsT.rowValues1.contains "O/R")) := by
  induction items with
  | nil => exact fun wsM wsT _ => rfl
  | cons q rest ih =>
    intro wsM wsT hrows
    obtain ⟨k, r'⟩ := q
    have hr2 : 2 ≤ r' := hrows (k, r') (by simp)
    have hrest : ∀ z ∈ rest, 2 ≤ z.2 := fun z hz => hrows z (by simp [hz])
    simp only [receive_orders, List.filter_cons]
    by_cases hk : k = "Material"
    · subst hk
      rw [if_pos (by decide)]
      cases hcon : wsM.rowValues1.contains "O/R" with
      | true =>
        rw [if_pos rfl]
        have hih := ih (markReceived wsM r' ts) wsT hrest
        rw [markReceived_rowValues1 wsM ts hr2] at hih
        rw [hih, hcon]
        simp
      | false =>
        rw [if_neg (by simp)]
        dsimp only
        rw [ih wsM wsT hrest, hcon]
        simp
    · rw [if_neg (by simp [hk])]
      by_cases hk2 : k = "Thread"
      · subst hk2
        rw [if_pos (by decide)]
        cases hcon : wsT.rowValues1.contains "O/R" with
        | true =>
          rw [if_pos rfl]
          have hih := ih wsM (markReceived wsT r' ts) hrest
          rw [markReceived_rowValues1 wsT ts hr2] at hih
          rw [hih, hcon]
          simp
        | false =>
          rw [if_neg (by simp)]
          dsimp only
          rw [ih wsM wsT hrest, hcon]
          simp
      · rw [if_neg (by simp [hk2])]
        rw [ih wsM wsT hrest]
        have hbm : (k == "Material") = false := by simp [hk]
        have hbt : (k == "Thread") = false := by simp [hk2]
        simp [hbm, hbt]

theorem mem_scanMaterialRows_status {oI dI mI yI : Option Nat} {i : Nat} {data : List Row}
    {ord : PendingOrder} (h : ord ∈ scanMaterialRows oI dI mI yI i data) :
    ord.kind = "Material" ∧
    ∃ j, j < data.length ∧ ord.row = i + j ∧ matchesOrdered oI (data.getD j []) = true := by
  induction data generalizing i with
  | nil => simp [scanMaterialRows] at h
  | cons row rest ih =>
    simp only [scanMaterialRows] at h
    by_cases hm : matchesOrdered oI row = true
    · rw [if_pos hm] at h
      cases dI with
      | none => simp at h
      | some d =>
        cases mI with
        | none => simp at h
        | some m =>
          cases yI with
          | none => simp at h
          | some y =>
            rcases List.mem_cons.mp h with rfl | hmem
            · exact ⟨rfl, 0, by simp, rfl, hm⟩
            · obtain ⟨hk, j, hj, hrow, hmatch⟩ := ih hmem
              refine ⟨hk, j + 1, by simp; omega, by omega, hmatch⟩
    · rw [if_neg hm] at h
      obtain ⟨hk, j, hj, hrow, hmatch⟩ := ih h
      refine ⟨hk, j + 1, by simp; omega, by omega, hmatch⟩

theorem mem_scanThreadRows_status {oI dI cI lI : Option Nat} {i : Nat} {data : List Row}
    {ord : PendingOrder} (h : ord ∈ scanThreadRows oI dI cI lI i data) :
    ord.kind = "Thread" ∧
    ∃ j, j < data.length ∧ ord.row = i + j ∧ matchesOrdered oI (data.getD j []) = true := by
  induction data generalizing i with
  | nil => simp [scanThreadRows] at h
  | cons row rest ih =>
    simp only [scanThreadRows] at h
    by_cases hm : matchesOrdered oI row = true
    · rw [if_pos hm] at h
      cases lI with
      | none => simp at h
      | some li =>
        dsimp only at h
        by_cases hlen : li < row.length
        · rw [if_pos hlen] at h
          cases dI with
          | none => simp at h
          | some d =>
            cases cI with
            | none => simp at h
            | some c =>
              rcases List.mem_cons.mp h with rfl | hmem
              · exact ⟨rfl, 0, by simp, rfl, hm⟩
              · obtain ⟨hk, j, hj, hrow, hmatch⟩ := ih hmem
                refine ⟨hk, j + 1, by simp; omega, by omega, hmatch⟩
        · rw [if_neg hlen] at h
          simp at h
    · rw [if_neg hm] at h
      obtain ⟨hk, j, hj, hrow, hmatch⟩ := ih h
      refine ⟨hk, j + 1, by simp; omega, by omega, hmatch⟩

theorem matchesOrdered_status {o : Nat} {row : Row}
    (h : matchesOrdered (some o) row = true) :
    pyLower (pyStrip (row.getD o "")) = "ordered" := by
  simp only [matchesOrdered, Bool.and_eq_true, decide_eq_true_eq, beq_iff_eq] at h
  exact h.2

/-- A row whose status cell holds `Received` never appears in the
material scan. -/
theorem scanMaterialTable_not_received (ws : Ws) {r : Nat} (_hr : 2 ≤ r)
    (hOR : ws.rowValues1.contains "O/R" = true)
    (hcell : ws.getCell r (headerIdx ws.rowValues1 "O/R" + 1) = "Received") :
    ∀ ord ∈ scanMaterialTable (some ws), ord.row ≠ r := by
  intro ord hmem hcontra
  simp only [scanMaterialTable, Ws.getAllValues] at hmem
  by_cases hlen : 2 ≤ ws.rows.length
  · rw [if_pos hlen] at hmem
    obtain ⟨-, j, hj, hrow, hmatch⟩ := mem_scanMaterialRows_status hmem
    rw [find_exact_header_index_untrimmed ws "O/R" hOR] at hmatch
    have hstat := matchesOrdered_status hmatch
    rw [getD_drop] at hstat
    have hj' : 1 + j = r - 1 := by omega
    rw [hj'] at hstat
    have hcell' : (ws.rows.getD (r - 1) []).getD (headerIdx ws.rowValues1 "O/R") "" =
        "Received" := by
      have hg := hcell
      unfold Ws.getCell at hg
      simpa using hg
    rw [hcell'] at hstat
    exact absurd hstat (by decide)
  · rw [if_neg hlen] at hmem
    simp at hmem

/-- A row whose status cell holds `Received` never appears in the
thread scan. -/
theorem scanThreadTable_not_received (ws : Ws) {r : Nat} (_hr : 2 ≤ r)
    (hOR : ws.rowValues1.contains "O/R" = true)
    (hcell : ws.getCell r (headerIdx ws.rowValues1 "O/R" + 1) = "Received") :
    ∀ ord ∈ scanThreadTable (some ws), ord.row ≠ r := by
  intro ord hmem hcontra
  simp only [scanThreadTable, Ws.getAllValues] at hmem
  by_cases hlen : 2 ≤ ws.rows.length
  · rw [if_pos hlen] at hmem
    obtain ⟨-, j, hj, hrow, hmatch⟩ := mem_scanThreadRows_status hmem
    rw [find_exact_header_index_untrimmed ws "O/R" hOR] at hmatch
    have hstat := matchesOrdered_status hmatch
    rw [getD_drop] at hstat
    have hj' : 1 + j = r - 1 := by omega
    rw [hj'] at hstat
    have hcell' : (ws.rows.getD (r - 1) []).getD (headerIdx ws.rowValues1 "O/R") "" =
        "Received" := by
      have hg := hcell
      unfold Ws.getCell at hg
      simpa using hg
    rw [hcell'] at hstat
    exact absurd hstat (by decide)
  · rw [if_neg hlen] at hmem
    simp at hmem

theorem mem_scanMaterialTable_kind {t : Option Ws} {ord : PendingOrder}
    (h : ord ∈ scanMaterialTable t) : ord.kind = "Material" := by
  cases t with
  | none => simp [scanMaterialTable] at h
  | some ws =>
    simp only [scanMaterialTable, Ws.getAllValues] at h
    by_cases hlen : 2 ≤ ws.rows.length
    · rw [if_pos hlen] at h
      exact (mem_scanMaterialRows_status h).1
    · rw [if_neg hlen] at h
      simp at h

theorem mem_scanThreadTable_kind {t : Option Ws} {ord : PendingOrder}
    (h : ord ∈ scanThreadTable t) : ord.kind = "Thread" := by
  cases t with
  | none => simp [scanThreadTable] at h
  | some ws =>
    simp only [scanThreadTable, Ws.getAllValues] at h
    by_cases hlen : 2 ≤ ws.rows.length
    · rw [if_pos hlen] at h
      exact (mem_scanThreadRows_status h).1
    · rw [if_neg hlen] at h
      simp at h

/-- **C6.**  `receive` marks each referenced row `Received` and stamps
its date cell with the receive-time timestamp, after which the row no
longer appears (for its kind) in a subsequent `loadPending`; a
reference whose table has no locatable `O/R` column is reported and
skipped without aborting the remaining references, and the failed
references form exactly the set of references whose table lacks
`O/R`. -/
theorem claim_C6_receive (wsM wsT : Ws) (ts : String) (items : List (String × Nat))
    (hMO : wsM.rowValues1.contains "O/R" = true)
    (hMD : wsM.rowValues1.contains "Date" = true)
    (hTO : wsT.rowValues1.contains "O/R" = true)
    (hTD : wsT.rowValues1.contains "Date" = true)
    (hrows : ∀ p ∈ items, 2 ≤ p.2) :
    (receive_orders wsM wsT ts items).2.2 = [] ∧
    (∀ p ∈ items, p.1 = "Material" →
      (receive_orders wsM wsT ts items).1.getCell p.2
        (headerIdx wsM.rowValues1 "O/R" + 1) = "Received" ∧
      (receive_orders wsM wsT ts items).1.getCell p.2
        (headerIdx wsM.rowValues1 "Date" + 1) = ts ∧
      ∀ ord ∈ load_orders_from_sheets (some (receive_orders wsM wsT ts items).1)
          (some (receive_orders wsM wsT ts items).2.1),
        ord.kind = "Material" → ord.row ≠ p.2) ∧
    (∀ p ∈ items, p.1 = "Thread" →
      (receive_orders wsM wsT ts items).2.1.getCell p.2
        (headerIdx wsT.rowValues1 "O/R" + 1) = "Received" ∧
      (receive_orders wsM wsT ts items).2.1.getCell p.2
        (headerIdx wsT.rowValues1 "Date" + 1) = ts ∧
      ∀ ord ∈ load_orders_from_sheets (some (receive_orders wsM wsT ts items).1)
          (some (receive_orders wsM wsT ts items).2.1),
        ord.kind = "Thread" → ord.row ≠ p.2) ∧
    (∀ wsM0 wsT0 : Ws,
      (receive_orders wsM0 wsT0 ts items).2.2 =
        items.filter (fun p => (p.1 == "Material" && !wsM0.rowValues1.contains "O/R")
          || (p.1 == "Thread" && !wsT0.rowValues1.contains "O/R"))) := by
  have hRV := receive_orders_rowValues1 ts items wsM wsT hrows
  refine ⟨?_, ?_, ?_, fun wsM0 wsT0 => receive_orders_failed ts items wsM0 wsT0 hrows⟩
  · rw [receive_orders_failed ts items wsM wsT hrows]
    simp [mem_of_contains hMO, mem_of_contains hTO]
  · intro p hp hkind
    have hrp : 2 ≤ p.2 := hrows p hp
    have hmk := receive_orders_material_marks ts items wsM wsT hrows hMO hMD p hp hkind
    refine ⟨hmk.1, hmk.2, ?_⟩
    intro ord hord hordk
    rcases List.mem_append.mp hord with hmat | hthr
    · refine scanMaterialTable_not_received (receive_orders wsM wsT ts items).1 hrp
        (by rw [hRV.1]; exact hMO) ?_ ord hmat
      rw [hRV.1]
      exact hmk.1
    · have := mem_scanThreadTable_kind hthr
      rw [hordk] at this
      exact absurd this (by decide)
  · intro p hp hkind
    have hrp : 2 ≤ p.2 := hrows p hp
    have hmk := receive_orders_thread_marks ts items wsM wsT hrows hTO hTD p hp hkind
    refine ⟨hmk.1, hmk.2, ?_⟩
    intro ord hord hordk
    rcases List.mem_append.mp hord with hmat | hthr
    · have := mem_scanMaterialTable_kind hmat
      rw [hordk] at this
      exact absurd this (by decide)
    · refine scanThreadTable_not_received (receive_orders wsM wsT ts items).2.1 hrp
        (by rw [hRV.2]; exact hTO) ?_ ord hthr
      rw [hRV.2]
      exact hmk.1

/-- Witness for C6: receiving the single pending thread order of the
fixture marks it Received, stamps the new date, and empties the pending
view. -/
theorem claim_C6_witness :
    (receive_orders threadDataWs1 threadDataWs1 "d9" [("Thread", 2)]).2.2 = [] ∧
    (receive_orders threadDataWs1 threadDataWs1 "d9" [("Thread", 2)]).2.1.getCell 2
      (headerIdx threadDataWs1.rowValues1 "O/R" + 1) = "Received" := by
  have h := claim_C6_receive threadDataWs1 threadDataWs1 "d9" [("Thread", 2)]
    (by decide) (by decide) (by decide) (by decide) (by decide)
  exact ⟨h.1, (h.2.2.1 ("Thread", 2) (by simp) rfl).1⟩

end OrderApp
